import Mathlib

/-!
Verification development for the schema bootstrap and reconciliation engine of
the Sistema_Floreria desktop application (`desktop_app/app/db/bootstrap.py`).

The Python module is shallowly embedded: pure string helpers become Lean
functions on `String`/`List Char`; the stateful MySQL connection becomes an
explicit `Conn` record threaded through the functions, with an abstract
`Engine` supplying the semantics of the SQL statements replayed from the
on-disk script files (those files and the MySQL server are external
collaborators of the module under verification).
-/

set_option maxRecDepth 8000

namespace Bootstrap

/-! ## Character-level helpers

`isPySpace` models Python's notion of whitespace used by `str.strip` and the
regex class `\s` for the ASCII range occurring in the SQL assets. -/

def isPySpace (c : Char) : Bool :=
  c = ' ' || c = '\t' || c = '\n' || c = '\r' || c = Char.ofNat 11 || c = Char.ofNat 12

/-- The single-quote character (written via its code point). -/
def squote : Char := Char.ofNat 39

/-- The double-quote character (written via its code point). -/
def dquote : Char := Char.ofNat 34

/-- The backtick character (written via its code point). -/
def btick : Char := Char.ofNat 96

/-- Remove trailing whitespace characters from a character list. -/
def dropWSRight : List Char → List Char
  | [] => []
  | c :: rest =>
    match dropWSRight rest with
    | [] => if isPySpace c then [] else [c]
    | r => c :: r

/-- Model of Python `str.strip()` on a character list. -/
def pyStripList (cs : List Char) : List Char :=
  dropWSRight (cs.dropWhile isPySpace)

/-- Model of Python `str.strip()` on a `String`. -/
def pyStrip (s : String) : String :=
  String.mk (pyStripList s.data)

/-! ## `_split_sql_statements`

Faithful embedding of `bootstrap._split_sql_statements`: a character scanner
with five mutually exclusive flags (single quote, double quote, backtick,
line comment, block comment) and one character of lookahead for `--`, `/*`
and `*/`.  The Python loop advances an index `i` by one or two positions;
here the scanner consumes one character per step and records a two-character
advance with the `skip` flag, which suppresses processing of the following
character. -/

structure ScanState where
  inS : Bool
  inD : Bool
  inB : Bool
  inLC : Bool
  inBC : Bool
  skip : Bool
  stmt : List Char
  acc : List String
deriving DecidableEq

/-- Append the stripped statement buffer to the accumulator when non-empty
(the flush performed at each top-level `;` and at end of input). -/
def flushStmt (stmt : List Char) (acc : List String) : List String :=
  let joined := pyStripList stmt
  if joined.isEmpty then acc else acc ++ [String.mk joined]

/-- One iteration of the `_split_sql_statements` loop, for current character
`c` and lookahead `next` (`none` at end of input). -/
def scanStep (st : ScanState) (c : Char) (next : Option Char) : ScanState :=
  if st.skip then { st with skip := false }
  else if st.inLC then
    if c = '\n' then { st with inLC := false } else st
  else if st.inBC then
    if c = '*' && next = some '/' then { st with inBC := false, skip := true } else st
  else if !(st.inS || st.inD || st.inB) && c = '-' && next = some '-' then
    { st with inLC := true, skip := true }
  else if !(st.inS || st.inD || st.inB) && c = '#' then
    { st with inLC := true }
  else if !(st.inS || st.inD || st.inB) && c = '/' && next = some '*' then
    { st with inBC := true, skip := true }
  else
    let inS' := if c = squote && !(st.inD || st.inB) then !st.inS else st.inS
    let inD' := if c = dquote && !(st.inS || st.inB) then !st.inD else st.inD
    let inB' := if c = btick && !(st.inS || st.inD) then !st.inB else st.inB
    if c = ';' && !(inS' || inD' || inB') then
      { st with
          inS := inS', inD := inD', inB := inB',
          stmt := [],
          acc := flushStmt st.stmt st.acc }
    else { st with inS := inS', inD := inD', inB := inB', stmt := st.stmt ++ [c] }

/-- Run the scanner over the remaining characters (each step sees the next
character as lookahead). -/
def scanAll : ScanState → List Char → ScanState
  | st, [] => st
  | st, c :: rest => scanAll (scanStep st c rest.head?) rest

/-- The scanner's initial state. -/
def initScan : ScanState :=
  { inS := false, inD := false, inB := false, inLC := false, inBC := false,
    skip := false, stmt := [], acc := [] }

/-- Embedding of `bootstrap._split_sql_statements`: scan the input, then
flush the trailing buffer if it is non-empty after stripping. -/
def split_sql_statements (sql : String) : List String :=
  let fin := scanAll initScan sql.data
  flushStmt fin.stmt fin.acc

/-! ## `_quote_identifier` -/

/-- Replace every backtick by a doubled backtick (Python
`identifier.replace` specialised to the call in `_quote_identifier`). -/
def doubleTicks : List Char → List Char
  | [] => []
  | c :: rest =>
    if c = btick then btick :: btick :: doubleTicks rest
    else c :: doubleTicks rest

/-- Embedding of `bootstrap._quote_identifier`: double embedded backticks and
wrap the identifier in backticks. -/
def quote_identifier (identifier : String) : String :=
  String.mk (btick :: (doubleTicks identifier.data ++ [btick]))

/-! ## Statement rewriting

`_execute_sql_file` rewrites each statement before executing it:
`USE ...` statements are replaced wholesale, `CREATE DATABASE ...` statements
are rewritten by the regex
`(?i)create\s+database\s+(if\s+not\s+exists\s+)?backtick?[^backtick-space]+backtick?`
(first occurrence only), and any other statement has every case-insensitive
occurrence of the literal `floreriadb` (optionally backtick-quoted) replaced
by the quoted target schema.  The two regexes are modelled by direct
matchers below. -/

/-- ASCII lower-casing of one character (Python `str.lower` restricted to
the ASCII statements handled here). -/
def toLowerChar (c : Char) : Char :=
  if 'A' ≤ c ∧ c ≤ 'Z' then Char.ofNat (c.toNat + 32) else c

/-- Does `cs` start with the pattern `ps`? (Python `str.startswith`.) -/
def startsWithList : List Char → List Char → Bool
  | [], _ => true
  | _ :: _, [] => false
  | p :: ps, c :: cs => c = p && startsWithList ps cs

/-- Case-insensitively drop the pattern `ps` from the front of `cs`
(ASCII case folding, as used by `re.IGNORECASE` on these patterns). -/
def ciDrop : List Char → List Char → Option (List Char)
  | [], cs => some cs
  | _ :: _, [] => none
  | p :: ps, c :: cs => if toLowerChar c = toLowerChar p then ciDrop ps cs else none

/-- Drop a single leading backtick when present (the trailing optional
backtick of both regexes). -/
def dropTick (cs : List Char) : List Char :=
  match cs with
  | c :: rest => if c = btick then rest else cs
  | [] => cs

/-- Match the regex `backtick?floreriadb backtick?` (case-insensitive)
at the head of `cs`, returning the remainder after the match. -/
def floMatch (cs : List Char) : Option (List Char) :=
  match cs with
  | c :: rest =>
    if c = btick then
      match ciDrop "floreriadb".data rest with
      | some rest2 => some (dropTick rest2)
      | none => none
    else
      match ciDrop "floreriadb".data cs with
      | some rest2 => some (dropTick rest2)
      | none => none
  | [] => none

/-- Replace every match of `backtick?floreriadb backtick?` by `lit`,
scanning left to right (Python `re.sub`).  `fuel` bounds the recursion and
is instantiated with the input length, which always suffices because every
match consumes at least ten characters. -/
def patchAux (lit : List Char) : Nat → List Char → List Char
  | 0, cs => cs
  | _ + 1, [] => []
  | fuel + 1, c :: rest =>
    match floMatch (c :: rest) with
    | some restAfter => lit ++ patchAux lit fuel restAfter
    | none => c :: patchAux lit fuel rest

/-- Embedding of the `re.sub` on line 232 of `bootstrap.py`: replace every
case-insensitive occurrence of `floreriadb` (optionally backtick-quoted) by
the quoted schema literal. -/
def patchSchemaRefs (lit : String) (statement : String) : String :=
  String.mk (patchAux lit.data statement.data.length statement.data)

/-- A character matched by the regex class `[^backtick\s]`. -/
def isNameChar (c : Char) : Bool :=
  !(c = btick) && !(isPySpace c)

/-- Match `[^backtick\s]+backtick?` at the head of `cs`. -/
def runTail (cs : List Char) : Option (List Char) :=
  match cs with
  | c :: rest =>
    if isNameChar c then some (dropTick (rest.dropWhile isNameChar))
    else none
  | [] => none

/-- Match `backtick?[^backtick\s]+backtick?` at the head of `cs`.  When the
leading backtick is consumed but the name fails, the regex backtracks to the
empty option; the run can then not start with a backtick either, so the
whole match fails. -/
def nameTail (cs : List Char) : Option (List Char) :=
  match cs with
  | c :: rest => if c = btick then runTail rest else runTail cs
  | [] => none

/-- Match `\s+` (one or more whitespace characters, greedily). -/
def ws1 (cs : List Char) : Option (List Char) :=
  match cs with
  | c :: rest => if isPySpace c then some (rest.dropWhile isPySpace) else none
  | [] => none

/-- Match the regex
`(?i)create\s+database\s+(if\s+not\s+exists\s+)?backtick?[^backtick\s]+backtick?`
at the head of `cs`, returning the remainder.  The optional group is tried
greedily first; if the rest of the pattern then fails, the group is dropped
(regex backtracking). -/
def matchCreateDb (cs : List Char) : Option (List Char) :=
  (ciDrop "create".data cs).bind fun r1 =>
  (ws1 r1).bind fun r2 =>
  (ciDrop "database".data r2).bind fun r3 =>
  (ws1 r3).bind fun r4 =>
    match ((ciDrop "if".data r4).bind fun g1 =>
           (ws1 g1).bind fun g2 =>
           (ciDrop "not".data g2).bind fun g3 =>
           (ws1 g3).bind fun g4 =>
           (ciDrop "exists".data g4).bind fun g5 =>
           (ws1 g5).bind fun g6 => nameTail g6) with
    | some r => some r
    | none => nameTail r4

/-- Replace the first (leftmost) match of the create-database regex by
`repl` (Python `re.sub` with `count=1`). -/
def subCreateDbAux (repl : List Char) : List Char → List Char
  | [] => []
  | c :: rest =>
    match matchCreateDb (c :: rest) with
    | some restAfter => repl ++ restAfter
    | none => c :: subCreateDbAux repl rest

/-- Embedding of the `re.sub` on line 223 of `bootstrap.py`. -/
def createDbRewrite (lit : String) (statement : String) : String :=
  String.mk (subCreateDbAux ("CREATE DATABASE IF NOT EXISTS " ++ lit).data statement.data)

/-- The three-way branch of the statement loop in `_execute_sql_file`,
driven by `statement.strip().lower()`. -/
inductive StmtClass
  | useStmt
  | createDb
  | plain
deriving DecidableEq

/-- `statement.strip().lower()` on the character-list level. -/
def normalizeStmt (s : String) : List Char :=
  (pyStripList s.data).map toLowerChar

/-- Classify a statement as the loop in `_execute_sql_file` does. -/
def classifyStatement (s : String) : StmtClass :=
  let normalized := normalizeStmt s
  if startsWithList "use ".data normalized then .useStmt
  else if startsWithList "create database".data normalized then .createDb
  else .plain

/-- The SQL text that `_execute_sql_file` actually sends to the cursor for
the source statement `s`, given the target schema name. -/
def executedText (schemaName : String) (s : String) : String :=
  let lit := quote_identifier schemaName
  match classifyStatement s with
  | .useStmt => "USE " ++ lit
  | .createDb => createDbRewrite lit s
  | .plain => patchSchemaRefs lit s

/-! ## The connection and catalog model

The MySQL server state visible to this module is modelled by a catalog `DB`:
the set of schemas, the set of `(schema, table)` pairs, and the reference
rows as `(schema, table, column, value)` tuples.  A connection `Conn` keeps
the last committed catalog, the pending (in-transaction) catalog, the
currently selected default schema, and a trace of every operation sent over
the wire.  A failed statement leaves the catalog unchanged; `commit` copies
pending to committed and `rollback` restores pending from committed. -/

structure DB where
  schemas : List String
  tables : List (String × String)
  rows : List (String × String × String × String)
deriving DecidableEq

/-- One operation sent over the borrowed connection. -/
inductive DbOp
  | query (sql : String) (params : List String)
  | exec (sql : String)
  | commit
  | rollback
  | setDatabase (name : String)
deriving DecidableEq

structure Conn where
  committed : DB
  pending : DB
  database : Option String
  trace : List DbOp
deriving DecidableEq

/-- The log records emitted by the module (modelled structurally: each
constructor corresponds to one `logger` call site in `bootstrap.py`). -/
inductive LogEntry
  | tablesExist (fileName : String)
  | tablesMissing (fileName : String) (missing : List String)
  | dryRunSkip (path : String)
  | dupIndexSkipped (fileName : String) (msg : String)
  | execError (path : String)
  | seedExists
  | seedMissing (missing : List (String × List String))
deriving DecidableEq

/-- The world threaded through the module: the borrowed connection plus the
logger output. -/
structure World where
  conn : Conn
  log : List LogEntry
deriving DecidableEq

/-- The exceptions raised by the module: Python's `FileNotFoundError`,
`mysql.connector.Error` (with its `errno` and `msg`), and the two
`RuntimeError` reconciliation failures (modelled with their payloads). -/
inductive Err
  | fileNotFound (path : String)
  | mysql (errno : Nat) (msg : String)
  | tablesPersist (fileName : String) (missing : List String)
  | seedPersist (missing : List (String × List String))
deriving DecidableEq

instance instDecEqExcept {ε α : Type} [DecidableEq ε] [DecidableEq α] :
    DecidableEq (Except ε α) := fun x y =>
  match x, y with
  | .ok a, .ok b =>
    if h : a = b then isTrue (by rw [h]) else isFalse (by intro hh; cases hh; exact h rfl)
  | .error a, .error b =>
    if h : a = b then isTrue (by rw [h]) else isFalse (by intro hh; cases hh; exact h rfl)
  | .ok _, .error _ => isFalse (by intro hh; cases hh)
  | .error _, .ok _ => isFalse (by intro hh; cases hh)

/-- Result of asking the server to execute one SQL statement.  On an error
the catalog is unchanged (MySQL statement atomicity). -/
inductive ExecOutcome
  | ok (db : DB)
  | err (errno : Nat) (msg : String)
deriving DecidableEq

/-- The abstract SQL engine: the semantics, supplied by the MySQL server,
of the statements replayed from the script files.  It sees the pending
catalog, the selected default schema and the statement text. -/
structure Engine where
  run : DB → Option String → String → ExecOutcome

/-- The file system: maps a path to the file's text when the file exists
(`Path.exists` plus `Path.read_text`). -/
def FileSys := String → Option String

/-- Characters of the last path component (everything after the last
slash). -/
def fileNameAux (cs : List Char) (cur : List Char) : List Char :=
  match cs with
  | [] => cur
  | c :: rest => if c = '/' then fileNameAux rest [] else fileNameAux rest (cur ++ [c])

/-- Python `Path.name`: the last component of a path. -/
def fileName (p : String) : String :=
  String.mk (fileNameAux p.data [])

/-- `CREATE DATABASE IF NOT EXISTS` semantics on the catalog. -/
def addSchema (db : DB) (schemaName : String) : DB :=
  if db.schemas.contains schemaName then db
  else { db with schemas := db.schemas ++ [schemaName] }

/-- Append one log entry. -/
def addLog (e : LogEntry) (st : World) : World :=
  { st with log := st.log ++ [e] }

/-! ## Schema/table inspector (`database_exists`, `missing_tables`) -/

def schemataQuery : String :=
  "SELECT 1 FROM INFORMATION_SCHEMA.SCHEMATA WHERE SCHEMA_NAME = %s"

def tablesQuery : String :=
  "SELECT 1 FROM INFORMATION_SCHEMA.TABLES WHERE TABLE_SCHEMA = %s AND TABLE_NAME = %s LIMIT 1"

/-- Embedding of `bootstrap.database_exists`. -/
def database_exists (st : World) (schemaName : String) : Bool × World :=
  (st.conn.pending.schemas.contains schemaName,
   { st with conn := { st.conn with
       trace := st.conn.trace ++ [.query schemataQuery [schemaName]] } })

/-- The pure content of `bootstrap.missing_tables`: if the schema does not
exist every candidate table is missing, otherwise keep the candidates with
no catalog row, in input order. -/
def missingTablesPure (db : DB) (schemaName : String) (tables : List String) : List String :=
  if db.schemas.contains schemaName then
    tables.filter (fun t => !(db.tables.contains (schemaName, t)))
  else tables

/-- Embedding of `bootstrap.missing_tables` (result plus the probe queries
it sends over the connection). -/
def missing_tables (st : World) (schemaName : String) (tables : List String) :
    List String × World :=
  let p := database_exists st schemaName
  if p.1 then
    (missingTablesPure st.conn.pending schemaName tables,
     { p.2 with conn := { p.2.conn with
         trace := p.2.conn.trace ++ tables.map (fun t => DbOp.query tablesQuery [schemaName, t]) } })
  else (tables, p.2)

/-! ## `_ensure_database` -/

/-- Embedding of `bootstrap._ensure_database`: create the schema if absent,
commit, and select it as the connection's default database if it is not
already selected. -/
def ensure_database (st : World) (schemaName : String) : World :=
  let lit := quote_identifier schemaName
  let c1 : Conn := { st.conn with
      pending := addSchema st.conn.pending schemaName,
      trace := st.conn.trace ++ [.exec ("CREATE DATABASE IF NOT EXISTS " ++ lit)] }
  let c2 : Conn := { c1 with committed := c1.pending, trace := c1.trace ++ [.commit] }
  let c3 : Conn :=
    if c2.database = some schemaName then c2
    else { c2 with database := some schemaName, trace := c2.trace ++ [.setDatabase schemaName] }
  { st with conn := c3 }

/-! ## `_execute_sql_file` -/

/-- Execute one rewritten statement of the script, as the loop body of
`_execute_sql_file` does.  `USE` and `CREATE DATABASE` statements always
target the configured schema after rewriting, so they are interpreted by
their MySQL semantics (select / create the schema); every other statement is
delegated to the abstract engine.  A duplicate-index error (errno 1061) is
logged and skipped; any other engine error is returned. -/
def applyStatement (eng : Engine) (schemaName : String) (path : String)
    (st : World) (s : String) : Except Err Unit × World :=
  let sql := executedText schemaName s
  match classifyStatement s with
  | .useStmt =>
      (.ok (), { st with conn := { st.conn with
          database := some schemaName,
          trace := st.conn.trace ++ [.exec sql] } })
  | .createDb =>
      (.ok (), { st with conn := { st.conn with
          pending := addSchema st.conn.pending schemaName,
          trace := st.conn.trace ++ [.exec sql] } })
  | .plain =>
      match eng.run st.conn.pending st.conn.database sql with
      | .ok db' =>
          (.ok (), { st with conn := { st.conn with
              pending := db',
              trace := st.conn.trace ++ [.exec sql] } })
      | .err n m =>
          if n = 1061 then
            (.ok (), { st with
                conn := { st.conn with trace := st.conn.trace ++ [.exec sql] },
                log := st.log ++ [.dupIndexSkipped (fileName path) m] })
          else
            (.error (.mysql n m),
             { st with conn := { st.conn with trace := st.conn.trace ++ [.exec sql] } })

/-- The statement loop of `_execute_sql_file`. -/
def replayLoop (eng : Engine) (schemaName : String) (path : String) :
    List String → World → Except Err Unit × World
  | [], st => (.ok (), st)
  | s :: rest, st =>
    match applyStatement eng schemaName path st s with
    | (.ok (), st') => replayLoop eng schemaName path rest st'
    | (.error e, st') => (.error e, st')

/-- Embedding of `bootstrap._execute_sql_file`: raise `FileNotFoundError`
when the script is absent (before any connection work); otherwise split the
script, replay the statements, commit on success, and on a non-tolerated
error roll back, log the offending path, and re-raise. -/
def execute_sql_file (eng : Engine) (fs : FileSys) (st : World)
    (path : String) (schemaName : String) : Except Err Unit × World :=
  match fs path with
  | none => (.error (.fileNotFound path), st)
  | some sql =>
    match replayLoop eng schemaName path (split_sql_statements sql) st with
    | (.ok (), st1) =>
        (.ok (), { st1 with conn := { st1.conn with
            committed := st1.conn.pending,
            trace := st1.conn.trace ++ [.commit] } })
    | (.error e, st1) =>
        (.error e,
         { st1 with
            conn := { st1.conn with
                pending := st1.conn.committed,
                trace := st1.conn.trace ++ [.rollback] },
            log := st1.log ++ [.execError path] })

/-! ## Module constants -/

/-- The fourteen base tables (`bootstrap.SCHEMA_TABLES`). -/
def SCHEMA_TABLES : List String :=
  ["roles", "users", "payment_methods", "logistic_statuses", "product_categories",
   "products", "customers", "customer_addresses", "orders", "order_items",
   "payments", "shipments", "shipment_status_history", "audit_log"]

/-- The four extension tables (`bootstrap.EXTENSION_TABLES`). -/
def EXTENSION_TABLES : List String :=
  ["inventory_movements", "inventory_levels", "product_price_history", "lost_orders"]

/-- Seed requirements: table, then per column the set of expected values
(`bootstrap.SEED_REQUIREMENTS`, with the Python sets as lists). -/
def SEED_REQUIREMENTS : List (String × List (String × List String)) :=
  [("roles", [("name", ["ADMIN", "SALES", "LOGISTICS"])]),
   ("payment_methods", [("code", ["CASH", "CARD", "BANK_TRANSFER", "MOBILE_WALLET"])]),
   ("logistic_statuses",
    [("code", ["PENDING_PICKUP", "IN_TRANSIT", "DELIVERED", "RETURNED", "CANCELLED"])])]

/-- Path of `schema.sql` relative to the project root. -/
def SCHEMA_FILE : String := "db/schema.sql"

/-- Path of `extension.sql` relative to the project root. -/
def EXTENSION_FILE : String := "db/extension.sql"

/-- Path of `seed.sql` relative to the project root. -/
def SEED_FILE : String := "db/seed.sql"

/-! ## `ensure_tables` -/

/-- Embedding of `bootstrap.ensure_tables`. -/
def ensure_tables (eng : Engine) (fs : FileSys) (st : World) (schemaName : String)
    (tables : List String) (sqlFile : String) (dryRun : Bool) : Except Err Bool × World :=
  let p := missing_tables st schemaName tables
  if p.1.isEmpty then (.ok false, addLog (.tablesExist (fileName sqlFile)) p.2)
  else
    let st2 := addLog (.tablesMissing (fileName sqlFile) p.1) p.2
    if dryRun then (.ok false, addLog (.dryRunSkip sqlFile) st2)
    else
      let st3 := ensure_database st2 schemaName
      match execute_sql_file eng fs st3 sqlFile schemaName with
      | (.error e, st4) => (.error e, st4)
      | (.ok _, st4) =>
        let q := missing_tables st4 schemaName tables
        if q.1.isEmpty then (.ok true, q.2)
        else (.error (.tablesPersist (fileName sqlFile) q.1), q.2)

/-! ## `_missing_seed_values` and `ensure_seed_data` -/

/-- Lexicographic comparison of character lists by code point (the order
Python `sorted` uses on strings). -/
def listLe : List Char → List Char → Bool
  | [], _ => true
  | _ :: _, [] => false
  | a :: as, b :: bs => if a = b then listLe as bs else decide (a.toNat < b.toNat)

/-- String order used by the seed-value sorting. -/
def strLe (a b : String) : Bool :=
  listLe a.data b.data

/-- Insert a string into a sorted list. -/
def insertSorted (v : String) : List String → List String
  | [] => [v]
  | x :: xs => if strLe v x then v :: x :: xs else x :: insertSorted v xs

/-- Sort a list of strings (model of Python `sorted`). -/
def sortStrings (l : List String) : List String :=
  l.foldr insertSorted []

/-- Remove duplicates (model of Python `set`; the order is canonicalised by
sorting afterwards, so which duplicate survives is irrelevant). -/
def dedupStr : List String → List String
  | [] => []
  | v :: rest =>
    let r := dedupStr rest
    if r.contains v then r else v :: r

/-- Canonical list form of a Python set of strings: sorted, no duplicates
(`sorted(expected_values)` in `_missing_seed_values`). -/
def sortedDedup (l : List String) : List String :=
  sortStrings (dedupStr l)

/-- Is the value present in the given table and column, resolved against the
connection's selected default schema (the seed query uses an unqualified
table name)? -/
def rowPresent (db : DB) (cur : Option String) (tbl col v : String) : Bool :=
  match cur with
  | some sch => db.rows.contains (sch, tbl, col, v)
  | none => false

/-- The expected values of one column that are absent from the table
(`set(expected_values) - present`), in canonical sorted order. -/
def missingForColumn (db : DB) (cur : Option String) (tbl col : String)
    (expected : List String) : List String :=
  (sortedDedup expected).filter (fun v => !(rowPresent db cur tbl col v))

/-- `missing.setdefault(table, set()).update(missing_values)`: accumulate
per-table missing values, keeping first-insertion table order and canonical
value order. -/
def mergeMissing (acc : List (String × List String)) (tbl : String)
    (vals : List String) : List (String × List String) :=
  match acc with
  | [] => [(tbl, vals)]
  | (t, vs) :: rest =>
    if t = tbl then (t, sortedDedup (vs ++ vals)) :: rest
    else (t, vs) :: mergeMissing rest tbl vals

/-- The inner loop of `_missing_seed_values` over one table's columns. -/
def missingColsAux (db : DB) (cur : Option String) (tbl : String) :
    List (String × List String) → List (String × List String) → List (String × List String)
  | [], acc => acc
  | (col, vals) :: rest, acc =>
    missingColsAux db cur tbl rest
      (if vals.isEmpty then acc
       else
         let mv := missingForColumn db cur tbl col vals
         if mv.isEmpty then acc else mergeMissing acc tbl mv)

/-- The outer loop of `_missing_seed_values` over the requirement tables. -/
def missingSeedAux (db : DB) (cur : Option String) :
    List (String × List (String × List String)) → List (String × List String) →
    List (String × List String)
  | [], acc => acc
  | (tbl, cols) :: rest, acc => missingSeedAux db cur rest (missingColsAux db cur tbl cols acc)

/-- The pure content of `bootstrap._missing_seed_values`. -/
def missingSeedPure (db : DB) (cur : Option String)
    (reqs : List (String × List (String × List String))) : List (String × List String) :=
  missingSeedAux db cur reqs []

/-- The `SELECT ... IN (...)` text sent for one requirement column. -/
def seedQueryText (tbl col : String) (n : Nat) : String :=
  "SELECT " ++ quote_identifier col ++ " FROM " ++ quote_identifier tbl ++
  " WHERE " ++ quote_identifier col ++ " IN (" ++
  String.intercalate ", " (List.replicate n "%s") ++ ")"

/-- The probe queries `_missing_seed_values` sends over the connection. -/
def seedTraceOps (reqs : List (String × List (String × List String))) : List DbOp :=
  reqs.foldl (fun acc tc =>
    tc.2.foldl (fun acc2 cv =>
      if cv.2.isEmpty then acc2
      else acc2 ++ [DbOp.query (seedQueryText tc.1 cv.1 (sortedDedup cv.2).length)
                      (sortedDedup cv.2)]) acc) []

/-- Embedding of `bootstrap._missing_seed_values` (result plus the probe
queries it sends). -/
def missing_seed_values (reqs : List (String × List (String × List String)))
    (st : World) : List (String × List String) × World :=
  (missingSeedPure st.conn.pending st.conn.database reqs,
   { st with conn := { st.conn with trace := st.conn.trace ++ seedTraceOps reqs } })

/-- Embedding of `bootstrap.ensure_seed_data`, generalised over the
requirement map it reconciles (`ensure_seed_data` itself instantiates it
with `SEED_REQUIREMENTS`). -/
def ensureSeedDataWith (reqs : List (String × List (String × List String)))
    (eng : Engine) (fs : FileSys) (st : World) (schemaName : String) :
    Except Err Bool × World :=
  if (missing_seed_values reqs (ensure_database st schemaName)).1.isEmpty then
    (.ok false, addLog .seedExists (missing_seed_values reqs (ensure_database st schemaName)).2)
  else
    match execute_sql_file eng fs
        (addLog (.seedMissing (missing_seed_values reqs (ensure_database st schemaName)).1)
          (missing_seed_values reqs (ensure_database st schemaName)).2)
        SEED_FILE schemaName with
    | (.error e, st3) => (.error e, st3)
    | (.ok _, st3) =>
      if (missing_seed_values reqs st3).1.isEmpty then
        (.ok true, (missing_seed_values reqs st3).2)
      else (.error (.seedPersist (missing_seed_values reqs st3).1), (missing_seed_values reqs st3).2)

/-- Embedding of `bootstrap.ensure_seed_data`. -/
def ensure_seed_data (eng : Engine) (fs : FileSys) (st : World)
    (schemaName : String) : Except Err Bool × World :=
  ensureSeedDataWith SEED_REQUIREMENTS eng fs st schemaName

/-! ## `initialize_database` -/

/-- Embedding of `bootstrap.initialize_database`: base tables, then the
extension tables when requested, then the seed data; returns whether any
stage applied a change. -/
def initialize_database (eng : Engine) (fs : FileSys) (st : World)
    (schemaName : String) (includeExtension : Bool) : Except Err Bool × World :=
  match ensure_tables eng fs st schemaName SCHEMA_TABLES SCHEMA_FILE false with
  | (.error e, st1) => (.error e, st1)
  | (.ok changed, st1) =>
    match
      (if includeExtension then
        match ensure_tables eng fs st1 schemaName EXTENSION_TABLES EXTENSION_FILE false with
        | (.error e, st2) => (Except.error e, st2)
        | (.ok c2, st2) => (Except.ok (c2 || changed), st2)
      else (Except.ok changed, st1)) with
    | (.error e, st2) => (.error e, st2)
    | (.ok changed2, st2) =>
      match ensure_seed_data eng fs st2 schemaName with
      | (.error e, st3) => (.error e, st3)
      | (.ok seedChanged, st3) => (.ok (changed2 || seedChanged), st3)

/-! ## Specification-level predicates -/

/-- Catalog growth: every schema, table and row of `a` is still present in
`b`. -/
def DB.Below (a b : DB) : Prop :=
  a.schemas ⊆ b.schemas ∧ a.tables ⊆ b.tables ∧ a.rows ⊆ b.rows

/-- Modelled from the spec: the script files `schema.sql`, `extension.sql`
and `seed.sql` are repository assets that are not included under `src/`.
Per the spec's file-format contract they hold DDL/DML (`CREATE DATABASE`,
`USE`, table definitions, seed inserts) authored against the placeholder
schema, so replaying any of their statements can only add catalog objects
and rows, never remove them.  An engine is monotone when every successful
statement execution grows the catalog in this sense. -/
def Engine.Monotone (eng : Engine) : Prop :=
  ∀ db cur sql db', eng.run db cur sql = .ok db' → DB.Below db db'

/-- The first `initialize_database` call has work to do: some required base
table is missing, some required extension table is missing while the
extension is requested, or some required seed value is absent. -/
def workToDo (st : World) (schemaName : String) (includeExtension : Bool) : Prop :=
  missingTablesPure st.conn.pending schemaName SCHEMA_TABLES ≠ []
  ∨ (includeExtension = true ∧
      missingTablesPure st.conn.pending schemaName EXTENSION_TABLES ≠ [])
  ∨ missingSeedPure st.conn.pending (some schemaName) SEED_REQUIREMENTS ≠ []

/-- The property claimed of every statement emitted by the splitter:
non-empty, and fixed under stripping. -/
def StrippedNE (t : String) : Prop :=
  t ≠ "" ∧ pyStrip t = t

/-! ## Concrete instances used by the witnesses -/

/-- The catalog tables of a fully bootstrapped `newshop` schema. -/
def newshopTables : List (String × String) :=
  (SCHEMA_TABLES ++ EXTENSION_TABLES).map (fun t => ("newshop", t))

/-- The seed rows of a fully bootstrapped `newshop` schema. -/
def newshopRows : List (String × String × String × String) :=
  (SEED_REQUIREMENTS.map (fun tc =>
    tc.2.map (fun cv => cv.2.map (fun v => ("newshop", tc.1, cv.1, v))))).flatten.flatten

/-- The empty catalog. -/
def emptyDB : DB := { schemas := [], tables := [], rows := [] }

/-- A world over a fresh connection to an empty server. -/
def emptyWorld : World :=
  { conn := { committed := emptyDB, pending := emptyDB, database := none, trace := [] },
    log := [] }

/-- An engine on which every statement succeeds without touching the
catalog. -/
def idEngine : Engine := { run := fun db _ _ => .ok db }

/-- An engine on which every statement succeeds and installs the complete
`newshop` catalog objects (a degenerate but monotone model of replaying the
repository's DDL/DML assets). -/
def installEngine : Engine :=
  { run := fun db _ _ =>
      .ok { db with tables := db.tables ++ newshopTables, rows := db.rows ++ newshopRows } }

/-- A file system on which every script exists and holds one statement. -/
def allFiles : FileSys := fun _ => some "X;"

/-- A world over a connection to a server that is already fully
bootstrapped for `newshop`. -/
def readyWorld : World :=
  { conn := { committed := { schemas := ["newshop"], tables := newshopTables, rows := newshopRows },
              pending := { schemas := ["newshop"], tables := newshopTables, rows := newshopRows },
              database := some "newshop", trace := [] },
    log := [] }

/-- A file system on which no script exists. -/
def noFiles : FileSys := fun _ => none

/-- An engine on which every statement fails with a non-tolerated error. -/
def failEngine : Engine := { run := fun _ _ _ => .err 42 "boom" }

/-- An engine on which exactly the statement `B` raises the duplicate-index
error 1061 and every other statement succeeds without effect. -/
def dupEngine : Engine :=
  { run := fun db _ sql => if sql = "B" then .err 1061 "dup" else .ok db }

/-- A script of three plain statements, the middle one of which `dupEngine`
rejects with error 1061. -/
def fileABC : FileSys := fun _ => some "A;B;C;"

/-- A world whose `newshop.roles` table already contains the `ADMIN` role
(but not `SALES`). -/
def seedWorld : World :=
  { conn := { committed := { schemas := ["newshop"], tables := [],
                             rows := [("newshop", "roles", "name", "ADMIN")] },
              pending := { schemas := ["newshop"], tables := [],
                           rows := [("newshop", "roles", "name", "ADMIN")] },
              database := none, trace := [] },
    log := [] }

/-- An engine on which every statement succeeds and inserts the `SALES`
role row for `newshop`. -/
def salesEngine : Engine :=
  { run := fun db _ _ =>
      .ok { db with rows := db.rows ++ [("newshop", "roles", "name", "SALES")] } }

/-! ## Lemmas: stripping -/

theorem dropWSRight_cons (c : Char) (rest : List Char) :
    dropWSRight (c :: rest) =
      match dropWSRight rest with
      | [] => if isPySpace c then [] else [c]
      | r => c :: r := rfl

theorem dropWSRight_idem (l : List Char) :
    dropWSRight (dropWSRight l) = dropWSRight l := by
  induction l with
  | nil => rfl
  | cons c rest ih =>
    rw [dropWSRight_cons]
    cases hr : dropWSRight rest with
    | nil =>
      by_cases hp : isPySpace c
      · simp [hp, dropWSRight]
      · simp [hp, dropWSRight]
    | cons x xs =>
      have ih' : dropWSRight (x :: xs) = x :: xs := by rw [← hr, ih, hr]
      show dropWSRight (c :: x :: xs) = c :: x :: xs
      rw [dropWSRight_cons, ih']

theorem dropWSRight_shape (c : Char) (rest : List Char) :
    dropWSRight (c :: rest) = [] ∨ ∃ r, dropWSRight (c :: rest) = c :: r := by
  rw [dropWSRight_cons]
  cases hr : dropWSRight rest with
  | nil =>
    by_cases hp : isPySpace c
    · exact Or.inl (by simp [hp])
    · exact Or.inr ⟨[], by simp [hp]⟩
  | cons x xs => exact Or.inr ⟨x :: xs, rfl⟩

theorem dropWhile_dropWSRight_of_fixed (l : List Char)
    (hl : l.dropWhile isPySpace = l) :
    (dropWSRight l).dropWhile isPySpace = dropWSRight l := by
  cases l with
  | nil => rfl
  | cons c rest =>
    have hp : isPySpace c = false := by
      by_contra hcon
      have hp' : isPySpace c = true := by
        cases h : isPySpace c
        · exact absurd h hcon
        · rfl
      have : List.dropWhile isPySpace (c :: rest) = List.dropWhile isPySpace rest := by
        simp [List.dropWhile_cons, hp']
      rw [hl] at this
      have hlen : (List.dropWhile isPySpace rest).length ≤ rest.length :=
        (List.dropWhile_sublist _).length_le
      rw [← this] at hlen
      simp at hlen
    rcases dropWSRight_shape c rest with h | ⟨r, h⟩
    · rw [h]; rfl
    · rw [h]; simp [List.dropWhile_cons, hp]

theorem pyStripList_idem (l : List Char) :
    pyStripList (pyStripList l) = pyStripList l := by
  unfold pyStripList
  rw [dropWhile_dropWSRight_of_fixed _ (List.dropWhile_idempotent _ _),
    dropWSRight_idem]

theorem pyStrip_mk (cs : List Char) : pyStrip (String.mk cs) = String.mk (pyStripList cs) := rfl

/-! ## Lemmas: the splitter produces stripped, non-empty statements -/

theorem flushStmt_stripped (stmt : List Char) (acc : List String)
    (hacc : ∀ t ∈ acc, StrippedNE t) :
    ∀ t ∈ flushStmt stmt acc, StrippedNE t := by
  intro t ht
  unfold flushStmt at ht
  by_cases h : (pyStripList stmt).isEmpty
  · simp only [h, if_pos] at ht
    exact hacc t ht
  · simp only [h, if_neg, Bool.not_eq_true] at ht
    rcases List.mem_append.mp ht with h1 | h2
    · exact hacc t h1
    · have ht2 : t = String.mk (pyStripList stmt) := by
        simpa using h2
      subst ht2
      constructor
      · intro hcon
        have : pyStripList stmt = [] := congrArg String.data hcon
        rw [List.isEmpty_iff] at h
        exact h this
      · rw [pyStrip_mk, pyStripList_idem]

theorem scanStep_acc (st : ScanState) (c : Char) (next : Option Char) :
    (scanStep st c next).acc = st.acc ∨
    (scanStep st c next).acc = flushStmt st.stmt st.acc := by
  simp only [scanStep]
  repeat' split
  all_goals simp

theorem scanAll_stripped (cs : List Char) (st : ScanState)
    (h : ∀ t ∈ st.acc, StrippedNE t) :
    ∀ t ∈ (scanAll st cs).acc, StrippedNE t := by
  induction cs generalizing st with
  | nil => exact h
  | cons c rest ih =>
    refine ih (scanStep st c rest.head?) ?_
    rcases scanStep_acc st c rest.head? with hs | hs
    · rw [hs]; exact h
    · rw [hs]; exact flushStmt_stripped _ _ h

theorem split_sql_statements_stripped (sql : String) :
    ∀ t ∈ split_sql_statements sql, StrippedNE t := by
  unfold split_sql_statements
  exact flushStmt_stripped _ _ (scanAll_stripped _ _ (by simp [initScan]))

/-! ## Lemmas: catalog growth -/

theorem DB.Below.refl (db : DB) : DB.Below db db :=
  ⟨List.Subset.refl _, List.Subset.refl _, List.Subset.refl _⟩

theorem DB.Below.trans {a b c : DB} (h1 : DB.Below a b) (h2 : DB.Below b c) :
    DB.Below a c :=
  ⟨h1.1.trans h2.1, h1.2.1.trans h2.2.1, h1.2.2.trans h2.2.2⟩

theorem addSchema_below (db : DB) (q : String) : DB.Below db (addSchema db q) := by
  unfold addSchema
  split
  · exact DB.Below.refl db
  · exact ⟨List.subset_append_left _ _, List.Subset.refl _, List.Subset.refl _⟩

/-! ## Lemmas: inspector projections -/

theorem missing_tables_fst (st : World) (q : String) (ts : List String) :
    (missing_tables st q ts).1 = missingTablesPure st.conn.pending q ts := by
  simp only [missing_tables, database_exists, missingTablesPure]
  split <;> simp_all

theorem missing_tables_pending (st : World) (q : String) (ts : List String) :
    (missing_tables st q ts).2.conn.pending = st.conn.pending := by
  simp only [missing_tables, database_exists]
  split <;> rfl

theorem missing_tables_committed (st : World) (q : String) (ts : List String) :
    (missing_tables st q ts).2.conn.committed = st.conn.committed := by
  simp only [missing_tables, database_exists]
  split <;> rfl

theorem missing_tables_database (st : World) (q : String) (ts : List String) :
    (missing_tables st q ts).2.conn.database = st.conn.database := by
  simp only [missing_tables, database_exists]
  split <;> rfl

theorem missing_tables_log (st : World) (q : String) (ts : List String) :
    (missing_tables st q ts).2.log = st.log := by
  simp only [missing_tables, database_exists]
  split <;> rfl

theorem missing_tables_trace (st : World) (q : String) (ts : List String) :
    ∃ tl, (missing_tables st q ts).2.conn.trace = st.conn.trace ++ tl := by
  simp only [missing_tables, database_exists]
  split
  · exact ⟨DbOp.query schemataQuery [q] :: ts.map (fun t => DbOp.query tablesQuery [q, t]),
      by simp⟩
  · exact ⟨[DbOp.query schemataQuery [q]], rfl⟩

/-! ## Lemmas: `_ensure_database` projections -/

theorem ensure_database_pending (st : World) (q : String) :
    (ensure_database st q).conn.pending = addSchema st.conn.pending q := by
  simp only [ensure_database]
  split <;> rfl

theorem ensure_database_committed (st : World) (q : String) :
    (ensure_database st q).conn.committed = addSchema st.conn.pending q := by
  simp only [ensure_database]
  split <;> rfl

theorem ensure_database_database (st : World) (q : String) :
    (ensure_database st q).conn.database = some q := by
  simp only [ensure_database]
  split
  · assumption
  · rfl

theorem ensure_database_log (st : World) (q : String) :
    (ensure_database st q).log = st.log := rfl

theorem ensure_database_trace (st : World) (q : String) :
    ∃ rest,
      (ensure_database st q).conn.trace =
        st.conn.trace ++
          (DbOp.exec ("CREATE DATABASE IF NOT EXISTS " ++ quote_identifier q) ::
            DbOp.commit :: rest) := by
  simp only [ensure_database]
  split
  · exact ⟨[], by simp⟩
  · exact ⟨[DbOp.setDatabase q], by simp⟩

theorem ensure_database_below (st : World) (q : String) :
    DB.Below st.conn.pending (ensure_database st q).conn.pending := by
  rw [ensure_database_pending]
  exact addSchema_below _ _

/-! ## Lemmas: the statement executor -/

theorem applyStatement_committed (eng : Engine) (q path : String) (st : World) (s : String) :
    (applyStatement eng q path st s).2.conn.committed = st.conn.committed := by
  simp only [applyStatement]
  repeat' split
  all_goals rfl

theorem applyStatement_trace (eng : Engine) (q path : String) (st : World) (s : String) :
    (applyStatement eng q path st s).2.conn.trace =
      st.conn.trace ++ [DbOp.exec (executedText q s)] := by
  simp only [applyStatement]
  repeat' split
  all_goals rfl

theorem applyStatement_log (eng : Engine) (q path : String) (st : World) (s : String) :
    ∃ tl, (applyStatement eng q path st s).2.log = st.log ++ tl := by
  simp only [applyStatement]
  repeat' split
  · exact ⟨[], by simp⟩
  · exact ⟨[], by simp⟩
  · exact ⟨[], by simp⟩
  · exact ⟨_, rfl⟩
  · exact ⟨[], by simp⟩

theorem applyStatement_database_some (eng : Engine) (q path : String) (st : World) (s : String)
    (h : st.conn.database = some q) :
    (applyStatement eng q path st s).2.conn.database = some q := by
  simp only [applyStatement]
  repeat' split
  all_goals first | rfl | exact h

theorem applyStatement_below (eng : Engine) (hm : eng.Monotone)
    (q path : String) (st : World) (s : String) :
    DB.Below st.conn.pending (applyStatement eng q path st s).2.conn.pending := by
  simp only [applyStatement]
  repeat' split
  · exact DB.Below.refl _
  · exact addSchema_below _ _
  case _ db' heq => exact hm _ _ _ _ heq
  · exact DB.Below.refl _
  · exact DB.Below.refl _

theorem applyStatement_error_shape (eng : Engine) (q path : String) (st : World) (s : String)
    (e : Err) (h : (applyStatement eng q path st s).1 = .error e) :
    ∃ n m, e = .mysql n m ∧ n ≠ 1061 := by
  simp only [applyStatement] at h
  split at h
  · simp at h
  · simp at h
  · split at h
    · simp at h
    · split at h
      · simp at h
      · rename_i hne
        simp only [Except.error.injEq] at h
        subst h
        exact ⟨_, _, rfl, hne⟩

/-! ## Lemmas: the replay loop -/

theorem replayLoop_committed (eng : Engine) (q path : String) (stmts : List String) :
    ∀ st : World, ((replayLoop eng q path stmts st).2).conn.committed = st.conn.committed := by
  induction stmts with
  | nil => intro st; rfl
  | cons s rest ih =>
    intro st
    simp only [replayLoop]
    rcases happ : applyStatement eng q path st s with ⟨r, st'⟩
    have hc := applyStatement_committed eng q path st s
    rw [happ] at hc
    cases r with
    | ok u => cases u; exact (ih st').trans hc
    | error e => exact hc

theorem replayLoop_below (eng : Engine) (hm : eng.Monotone) (q path : String)
    (stmts : List String) :
    ∀ st : World,
      DB.Below st.conn.pending ((replayLoop eng q path stmts st).2).conn.pending := by
  induction stmts with
  | nil => intro st; exact DB.Below.refl _
  | cons s rest ih =>
    intro st
    simp only [replayLoop]
    rcases happ : applyStatement eng q path st s with ⟨r, st'⟩
    have hb := applyStatement_below eng hm q path st s
    rw [happ] at hb
    cases r with
    | ok u => cases u; exact hb.trans (ih st')
    | error e => exact hb

theorem replayLoop_database_some (eng : Engine) (q path : String) (stmts : List String) :
    ∀ st : World, st.conn.database = some q →
      ((replayLoop eng q path stmts st).2).conn.database = some q := by
  induction stmts with
  | nil => intro st h; exact h
  | cons s rest ih =>
    intro st h
    simp only [replayLoop]
    rcases happ : applyStatement eng q path st s with ⟨r, st'⟩
    have hd := applyStatement_database_some eng q path st s h
    rw [happ] at hd
    cases r with
    | ok u => cases u; exact ih st' hd
    | error e => exact hd

theorem replayLoop_trace_extends (eng : Engine) (q path : String) (stmts : List String) :
    ∀ st : World, ∃ tl,
      ((replayLoop eng q path stmts st).2).conn.trace = st.conn.trace ++ tl := by
  induction stmts with
  | nil => intro st; exact ⟨[], by simp [replayLoop]⟩
  | cons s rest ih =>
    intro st
    simp only [replayLoop]
    rcases happ : applyStatement eng q path st s with ⟨r, st'⟩
    have ht := applyStatement_trace eng q path st s
    rw [happ] at ht
    cases r with
    | ok u =>
      cases u
      obtain ⟨tl, htl⟩ := ih st'
      exact ⟨DbOp.exec (executedText q s) :: tl, by rw [htl, ht]; simp⟩
    | error e => exact ⟨[DbOp.exec (executedText q s)], ht⟩

theorem replayLoop_log_extends (eng : Engine) (q path : String) (stmts : List String) :
    ∀ st : World, ∃ tl, ((replayLoop eng q path stmts st).2).log = st.log ++ tl := by
  induction stmts with
  | nil => intro st; exact ⟨[], by simp [replayLoop]⟩
  | cons s rest ih =>
    intro st
    simp only [replayLoop]
    rcases happ : applyStatement eng q path st s with ⟨r, st'⟩
    obtain ⟨tl1, hl1⟩ := applyStatement_log eng q path st s
    rw [happ] at hl1
    cases r with
    | ok u =>
      cases u
      obtain ⟨tl2, hl2⟩ := ih st'
      exact ⟨tl1 ++ tl2, by rw [hl2, hl1]; simp⟩
    | error e => exact ⟨tl1, hl1⟩

theorem replayLoop_error_shape (eng : Engine) (q path : String) (stmts : List String) :
    ∀ (st : World) (e : Err), (replayLoop eng q path stmts st).1 = .error e →
      ∃ n m, e = .mysql n m ∧ n ≠ 1061 := by
  induction stmts with
  | nil => intro st e h; simp [replayLoop] at h
  | cons s rest ih =>
    intro st e h
    simp only [replayLoop] at h
    rcases happ : applyStatement eng q path st s with ⟨r, st'⟩
    rw [happ] at h
    cases r with
    | ok u => cases u; exact ih st' e h
    | error e' =>
      simp only [Except.error.injEq] at h
      subst h
      exact applyStatement_error_shape eng q path st s _ (by rw [happ])

theorem applyStatement_tolerated (eng : Engine) (q path : String) (st : World) (s : String)
    (htol : ∀ n m, eng.run st.conn.pending st.conn.database (executedText q s) = .err n m →
      n = 1061) :
    (applyStatement eng q path st s).1 = .ok () := by
  simp only [applyStatement]
  split
  · rfl
  · rfl
  · split
    · rfl
    · rename_i n m hrun
      rw [if_pos (htol n m hrun)]

theorem replayLoop_tolerated (eng : Engine) (q path : String) (stmts : List String) :
    ∀ st : World,
      (∀ db cur s n m, s ∈ stmts → eng.run db cur (executedText q s) = .err n m → n = 1061) →
      (replayLoop eng q path stmts st).1 = .ok () ∧
      ((replayLoop eng q path stmts st).2).conn.trace =
        st.conn.trace ++ stmts.map (fun s => DbOp.exec (executedText q s)) := by
  induction stmts with
  | nil => intro st _; exact ⟨rfl, by simp [replayLoop]⟩
  | cons s rest ih =>
    intro st htol
    simp only [replayLoop]
    rcases happ : applyStatement eng q path st s with ⟨r, st'⟩
    have hok : r = .ok () := by
      have := applyStatement_tolerated eng q path st s
        (fun n m h => htol _ _ s n m (by simp) h)
      rw [happ] at this
      exact this
    subst hok
    have ht := applyStatement_trace eng q path st s
    rw [happ] at ht
    obtain ⟨ihok, ihtr⟩ := ih st' (fun db cur s' n m hmem h =>
      htol db cur s' n m (List.mem_cons_of_mem _ hmem) h)
    refine ⟨ihok, ?_⟩
    rw [ihtr, ht]
    simp

theorem replayLoop_committed' (eng : Engine) (q path : String) (L : List String)
    (st : World) (r : Except Err Unit) (st1 : World)
    (h : replayLoop eng q path L st = (r, st1)) :
    st1.conn.committed = st.conn.committed := by
  have := replayLoop_committed eng q path L st
  rw [h] at this
  exact this

theorem replayLoop_below' (eng : Engine) (hm : eng.Monotone) (q path : String)
    (L : List String) (st : World) (r : Except Err Unit) (st1 : World)
    (h : replayLoop eng q path L st = (r, st1)) :
    DB.Below st.conn.pending st1.conn.pending := by
  have := replayLoop_below eng hm q path L st
  rw [h] at this
  exact this

theorem replayLoop_database_some' (eng : Engine) (q path : String) (L : List String)
    (st : World) (r : Except Err Unit) (st1 : World) (h0 : st.conn.database = some q)
    (h : replayLoop eng q path L st = (r, st1)) :
    st1.conn.database = some q := by
  have := replayLoop_database_some eng q path L st h0
  rw [h] at this
  exact this

theorem replayLoop_log_extends' (eng : Engine) (q path : String) (L : List String)
    (st : World) (r : Except Err Unit) (st1 : World)
    (h : replayLoop eng q path L st = (r, st1)) :
    ∃ tl, st1.log = st.log ++ tl := by
  obtain ⟨tl, htl⟩ := replayLoop_log_extends eng q path L st
  rw [h] at htl
  exact ⟨tl, htl⟩

theorem replayLoop_trace_extends' (eng : Engine) (q path : String) (L : List String)
    (st : World) (r : Except Err Unit) (st1 : World)
    (h : replayLoop eng q path L st = (r, st1)) :
    ∃ tl, st1.conn.trace = st.conn.trace ++ tl := by
  obtain ⟨tl, htl⟩ := replayLoop_trace_extends eng q path L st
  rw [h] at htl
  exact ⟨tl, htl⟩

theorem replayLoop_error_shape' (eng : Engine) (q path : String) (L : List String)
    (st : World) (e : Err) (st1 : World)
    (h : replayLoop eng q path L st = (.error e, st1)) :
    ∃ n m, e = .mysql n m ∧ n ≠ 1061 :=
  replayLoop_error_shape eng q path L st e (by rw [h])

/-! ## Lemmas: `_execute_sql_file` -/

theorem execute_sql_file_ok (eng : Engine) (hm : eng.Monotone) (fs : FileSys)
    (st : World) (path q : String) (u : Unit) (st' : World)
    (h : execute_sql_file eng fs st path q = (.ok u, st')) :
    DB.Below st.conn.pending st'.conn.pending ∧
    st'.conn.committed = st'.conn.pending := by
  unfold execute_sql_file at h
  split at h
  · simp at h
  · split at h
    · rename_i st1 hloop
      simp only [Prod.mk.injEq] at h
      obtain ⟨-, h2⟩ := h
      subst h2
      have hb := replayLoop_below' eng hm q path _ st _ _ hloop
      exact ⟨hb, rfl⟩
    · simp at h

theorem execute_sql_file_ok_pc (eng : Engine) (fs : FileSys)
    (st : World) (path q : String) (u : Unit) (st' : World)
    (h : execute_sql_file eng fs st path q = (.ok u, st')) :
    st'.conn.committed = st'.conn.pending := by
  unfold execute_sql_file at h
  split at h
  · simp at h
  · split at h
    · rename_i st1 hloop
      simp only [Prod.mk.injEq] at h
      obtain ⟨-, h2⟩ := h
      subst h2
      rfl
    · simp at h

theorem execute_sql_file_database_some (eng : Engine) (fs : FileSys)
    (st : World) (path q : String) (h0 : st.conn.database = some q) :
    ((execute_sql_file eng fs st path q).2).conn.database = some q := by
  unfold execute_sql_file
  split
  · exact h0
  · split
    · rename_i st1 hloop
      have hd := replayLoop_database_some' eng q path _ st _ _ h0 hloop
      exact hd
    · rename_i e st1 hloop
      have hd := replayLoop_database_some' eng q path _ st _ _ h0 hloop
      exact hd

theorem execute_sql_file_log_extends (eng : Engine) (fs : FileSys)
    (st : World) (path q : String) :
    ∃ tl, ((execute_sql_file eng fs st path q).2).log = st.log ++ tl := by
  unfold execute_sql_file
  split
  · exact ⟨[], by simp⟩
  · split
    · rename_i st1 hloop
      obtain ⟨tl, htl⟩ := replayLoop_log_extends' eng q path _ st _ _ hloop
      exact ⟨tl, by simp [htl]⟩
    · rename_i e st1 hloop
      obtain ⟨tl, htl⟩ := replayLoop_log_extends' eng q path _ st _ _ hloop
      exact ⟨tl ++ [.execError path], by simp [htl]⟩

theorem execute_sql_file_trace_extends (eng : Engine) (fs : FileSys)
    (st : World) (path q : String) :
    ∃ tl, ((execute_sql_file eng fs st path q).2).conn.trace = st.conn.trace ++ tl := by
  unfold execute_sql_file
  split
  · exact ⟨[], by simp⟩
  · split
    · rename_i st1 hloop
      obtain ⟨tl, htl⟩ := replayLoop_trace_extends' eng q path _ st _ _ hloop
      exact ⟨tl ++ [.commit], by simp [htl]⟩
    · rename_i e st1 hloop
      obtain ⟨tl, htl⟩ := replayLoop_trace_extends' eng q path _ st _ _ hloop
      exact ⟨tl ++ [.rollback], by simp [htl]⟩

theorem execute_sql_file_error (eng : Engine) (fs : FileSys)
    (st : World) (path q : String) (e : Err) (st' : World)
    (h : execute_sql_file eng fs st path q = (.error e, st')) :
    (fs path = none ∧ e = .fileNotFound path ∧ st' = st) ∨
    (∃ n m, e = .mysql n m ∧ n ≠ 1061 ∧
      st'.conn.pending = st.conn.committed ∧
      st'.conn.committed = st.conn.committed ∧
      LogEntry.execError path ∈ st'.log ∧
      st'.conn.trace.getLast? = some .rollback) := by
  unfold execute_sql_file at h
  split at h
  · rename_i hfs
    simp only [Prod.mk.injEq, Except.error.injEq] at h
    exact Or.inl ⟨hfs, h.1.symm, h.2.symm⟩
  · split at h
    · simp at h
    · rename_i e' st1 hloop
      simp only [Prod.mk.injEq, Except.error.injEq] at h
      obtain ⟨he, hst⟩ := h
      subst he
      subst hst
      obtain ⟨n, m, hnm, hn⟩ := replayLoop_error_shape' eng q path _ st _ _ hloop
      have hc := replayLoop_committed' eng q path _ st _ _ hloop
      exact Or.inr ⟨n, m, hnm, hn, by simp [hc], by simp [hc], by simp,
        by simp [List.getLast?_concat]⟩

/-! ## Lemmas: `addSchema` and `addLog` projections -/

theorem addSchema_rows (db : DB) (q : String) : (addSchema db q).rows = db.rows := by
  unfold addSchema; split <;> rfl

theorem addSchema_tables (db : DB) (q : String) : (addSchema db q).tables = db.tables := by
  unfold addSchema; split <;> rfl

theorem addSchema_mem_self (db : DB) (q : String) : q ∈ (addSchema db q).schemas := by
  unfold addSchema
  split
  · rename_i h
    exact List.elem_iff.mp h
  · simp

theorem addSchema_of_mem (db : DB) (q : String) (h : q ∈ db.schemas) :
    addSchema db q = db := by
  unfold addSchema
  rw [if_pos (List.elem_iff.mpr h)]

theorem addLog_conn (e : LogEntry) (st : World) : (addLog e st).conn = st.conn := rfl

/-! ## Lemmas: `ensure_tables` characterisations -/

theorem missingTablesPure_nil (db : DB) (q : String) (ts : List String)
    (h : missingTablesPure db q ts = []) : ∀ t ∈ ts, (q, t) ∈ db.tables := by
  unfold missingTablesPure at h
  split at h
  · intro t ht
    have hall := List.filter_eq_nil_iff.mp h t ht
    simp only [Bool.not_eq_true', Bool.not_eq_false] at hall
    exact List.elem_iff.mp hall
  · subst h
    intro t ht
    cases ht

theorem ensure_tables_nowork (eng : Engine) (fs : FileSys) (st : World) (q : String)
    (tables : List String) (f : String) (dr : Bool)
    (hmiss : missingTablesPure st.conn.pending q tables = []) :
    ensure_tables eng fs st q tables f dr =
      (.ok false, addLog (.tablesExist (fileName f)) (missing_tables st q tables).2) := by
  unfold ensure_tables
  have hfst := missing_tables_fst st q tables
  rw [hmiss] at hfst
  rw [if_pos (by rw [hfst]; rfl)]

theorem ensure_tables_ok_cases (eng : Engine) (fs : FileSys) (st : World) (q : String)
    (tables : List String) (f : String) (b : Bool) (st' : World)
    (h : ensure_tables eng fs st q tables f false = (.ok b, st')) :
    (b = false ∧ (missing_tables st q tables).1.isEmpty = true ∧
      st' = addLog (.tablesExist (fileName f)) (missing_tables st q tables).2) ∨
    (b = true ∧ ∃ st4,
      execute_sql_file eng fs
        (ensure_database
          (addLog (.tablesMissing (fileName f) (missing_tables st q tables).1)
            (missing_tables st q tables).2) q) f q = (.ok (), st4) ∧
      (missing_tables st4 q tables).1.isEmpty = true ∧
      st' = (missing_tables st4 q tables).2) := by
  unfold ensure_tables at h
  by_cases hempty : (missing_tables st q tables).1.isEmpty = true
  · rw [if_pos hempty] at h
    simp only [Prod.mk.injEq, Except.ok.injEq] at h
    exact Or.inl ⟨h.1.symm, hempty, h.2.symm⟩
  · rw [if_neg hempty] at h
    simp only [Bool.false_eq_true, if_false] at h
    split at h
    · simp at h
    · rename_i u st4 hexec
      cases u
      by_cases hempty2 : (missing_tables st4 q tables).1.isEmpty = true
      · rw [if_pos hempty2] at h
        simp only [Prod.mk.injEq, Except.ok.injEq] at h
        exact Or.inr ⟨h.1.symm, st4, hexec, hempty2, h.2.symm⟩
      · rw [if_neg hempty2] at h
        simp at h

theorem ensure_tables_ok_false (eng : Engine) (fs : FileSys) (st : World) (q : String)
    (tables : List String) (f : String) (st' : World)
    (h : ensure_tables eng fs st q tables f false = (.ok false, st')) :
    missingTablesPure st.conn.pending q tables = [] ∧
    st'.conn.pending = st.conn.pending ∧
    st'.conn.committed = st.conn.committed ∧
    st'.conn.database = st.conn.database := by
  rcases ensure_tables_ok_cases eng fs st q tables f false st' h with
    ⟨-, hempty, hst⟩ | ⟨hb, -⟩
  · subst hst
    have hfst := missing_tables_fst st q tables
    refine ⟨?_, ?_, ?_, ?_⟩
    · rw [← hfst]; exact List.isEmpty_iff.mp hempty
    · rw [addLog_conn, missing_tables_pending]
    · rw [addLog_conn, missing_tables_committed]
    · rw [addLog_conn, missing_tables_database]
  · cases hb

theorem ensure_tables_ok_present (eng : Engine) (fs : FileSys) (st : World) (q : String)
    (tables : List String) (f : String) (b : Bool) (st' : World)
    (h : ensure_tables eng fs st q tables f false = (.ok b, st')) :
    ∀ t ∈ tables, (q, t) ∈ st'.conn.pending.tables := by
  rcases ensure_tables_ok_cases eng fs st q tables f b st' h with
    ⟨-, hempty, hst⟩ | ⟨-, st4, -, hempty2, hst⟩
  · subst hst
    intro t ht
    rw [addLog_conn, missing_tables_pending]
    refine missingTablesPure_nil _ _ _ ?_ t ht
    rw [← missing_tables_fst st q tables]
    exact List.isEmpty_iff.mp hempty
  · subst hst
    intro t ht
    rw [missing_tables_pending]
    refine missingTablesPure_nil _ _ _ ?_ t ht
    rw [← missing_tables_fst st4 q tables]
    exact List.isEmpty_iff.mp hempty2

theorem ensure_tables_ok_below (eng : Engine) (hm : eng.Monotone) (fs : FileSys)
    (st : World) (q : String) (tables : List String) (f : String) (b : Bool) (st' : World)
    (h : ensure_tables eng fs st q tables f false = (.ok b, st')) :
    DB.Below st.conn.pending st'.conn.pending := by
  rcases ensure_tables_ok_cases eng fs st q tables f b st' h with
    ⟨-, -, hst⟩ | ⟨-, st4, hexec, -, hst⟩
  · subst hst
    rw [addLog_conn, missing_tables_pending]
    exact DB.Below.refl _
  · subst hst
    rw [missing_tables_pending]
    have h1 := ensure_database_below
      (addLog (.tablesMissing (fileName f) (missing_tables st q tables).1)
        (missing_tables st q tables).2) q
    rw [addLog_conn, missing_tables_pending] at h1
    have h2 := (execute_sql_file_ok eng hm fs _ f q _ st4 hexec).1
    exact h1.trans h2

theorem ensure_tables_ok_pc (eng : Engine) (fs : FileSys) (st : World) (q : String)
    (tables : List String) (f : String) (b : Bool) (st' : World)
    (hpc : st.conn.pending = st.conn.committed)
    (h : ensure_tables eng fs st q tables f false = (.ok b, st')) :
    st'.conn.pending = st'.conn.committed := by
  rcases ensure_tables_ok_cases eng fs st q tables f b st' h with
    ⟨-, -, hst⟩ | ⟨-, st4, hexec, -, hst⟩
  · subst hst
    rw [addLog_conn, missing_tables_pending, missing_tables_committed]
    exact hpc
  · subst hst
    rw [missing_tables_pending, missing_tables_committed]
    exact (execute_sql_file_ok_pc eng fs _ f q _ st4 hexec).symm

theorem ensure_tables_ok_dbsome (eng : Engine) (fs : FileSys) (st : World) (q : String)
    (tables : List String) (f : String) (b : Bool) (st' : World)
    (hdb : st.conn.database = some q)
    (h : ensure_tables eng fs st q tables f false = (.ok b, st')) :
    st'.conn.database = some q := by
  rcases ensure_tables_ok_cases eng fs st q tables f b st' h with
    ⟨-, -, hst⟩ | ⟨-, st4, hexec, -, hst⟩
  · subst hst
    rw [addLog_conn, missing_tables_database]
    exact hdb
  · subst hst
    rw [missing_tables_database]
    have hd := execute_sql_file_database_some eng fs
      (ensure_database (addLog (.tablesMissing (fileName f) (missing_tables st q tables).1)
        (missing_tables st q tables).2) q) f q (ensure_database_database _ q)
    rw [hexec] at hd
    exact hd

theorem ensure_tables_file_missing (eng : Engine) (fs : FileSys) (st : World) (q : String)
    (tables : List String) (f : String)
    (hfs : fs f = none)
    (hmiss : missingTablesPure st.conn.pending q tables ≠ []) :
    (ensure_tables eng fs st q tables f false).1 = .error (.fileNotFound f) := by
  unfold ensure_tables
  have hfst := missing_tables_fst st q tables
  rw [if_neg (by rw [hfst]; simpa [List.isEmpty_iff] using hmiss)]
  simp only [Bool.false_eq_true, if_false]
  have hx : execute_sql_file eng fs
      (ensure_database (addLog (.tablesMissing (fileName f) (missing_tables st q tables).1)
        (missing_tables st q tables).2) q) f q =
      (.error (.fileNotFound f),
       ensure_database (addLog (.tablesMissing (fileName f) (missing_tables st q tables).1)
        (missing_tables st q tables).2) q) := by
    unfold execute_sql_file
    rw [hfs]
  rw [hx]

/-! ## Lemmas: seed value bookkeeping -/

theorem mem_insertSorted (v w : String) (l : List String) :
    v ∈ insertSorted w l ↔ v = w ∨ v ∈ l := by
  induction l with
  | nil => simp [insertSorted]
  | cons x xs ih =>
    unfold insertSorted
    split
    · simp
    · simp only [List.mem_cons, ih]
      tauto

theorem mem_sortStrings (v : String) (l : List String) :
    v ∈ sortStrings l ↔ v ∈ l := by
  induction l with
  | nil => simp [sortStrings]
  | cons x xs ih =>
    show v ∈ insertSorted x (sortStrings xs) ↔ _
    rw [mem_insertSorted, ih]
    simp

theorem mem_dedupStr (v : String) (l : List String) :
    v ∈ dedupStr l ↔ v ∈ l := by
  induction l with
  | nil => simp [dedupStr]
  | cons x xs ih =>
    rw [show dedupStr (x :: xs) =
      (if (dedupStr xs).contains x then dedupStr xs else x :: dedupStr xs) from rfl]
    by_cases hc : (dedupStr xs).contains x = true
    · rw [if_pos hc]
      simp only [List.mem_cons, ih]
      constructor
      · exact Or.inr
      · rintro (rfl | hm)
        · rw [← ih]; exact List.elem_iff.mp hc
        · exact hm
    · rw [if_neg hc]
      simp only [List.mem_cons, ih]

theorem mem_sortedDedup (v : String) (l : List String) :
    v ∈ sortedDedup l ↔ v ∈ l := by
  unfold sortedDedup
  rw [mem_sortStrings, mem_dedupStr]

theorem missingForColumn_nil (db : DB) (cur : Option String) (tbl col : String)
    (expected : List String) (h : missingForColumn db cur tbl col expected = []) :
    ∀ v ∈ expected, rowPresent db cur tbl col v = true := by
  intro v hv
  have hall := List.filter_eq_nil_iff.mp h v ((mem_sortedDedup v expected).mpr hv)
  simpa using hall

theorem mergeMissing_ne_nil (acc : List (String × List String)) (tbl : String)
    (vals : List String) : mergeMissing acc tbl vals ≠ [] := by
  cases acc with
  | nil => simp [mergeMissing]
  | cons p rest =>
    unfold mergeMissing
    split
    · simp
    · simp

theorem missingColsAux_nil (db : DB) (cur : Option String) (tbl : String)
    (cols : List (String × List String)) :
    ∀ acc, missingColsAux db cur tbl cols acc = [] →
      acc = [] ∧ ∀ cv ∈ cols, cv.2 ≠ [] →
        missingForColumn db cur tbl cv.1 cv.2 = [] := by
  induction cols with
  | nil =>
    intro acc h
    exact ⟨h, by intro cv hcv; cases hcv⟩
  | cons cv rest ih =>
    intro acc h
    rw [show missingColsAux db cur tbl (cv :: rest) acc =
      missingColsAux db cur tbl rest
        (if cv.2.isEmpty then acc
         else
           let mv := missingForColumn db cur tbl cv.1 cv.2
           if mv.isEmpty then acc else mergeMissing acc tbl mv) from rfl] at h
    obtain ⟨hacc, hrest⟩ := ih _ h
    by_cases he : cv.2.isEmpty
    · rw [if_pos he] at hacc
      refine ⟨hacc, ?_⟩
      intro cv' hcv' hne
      rcases List.mem_cons.mp hcv' with rfl | hm
      · exact absurd (List.isEmpty_iff.mp he) hne
      · exact hrest cv' hm hne
    · rw [if_neg he] at hacc
      by_cases hmv : (missingForColumn db cur tbl cv.1 cv.2).isEmpty
      · simp only [hmv, if_pos] at hacc
        refine ⟨hacc, ?_⟩
        intro cv' hcv' hne
        rcases List.mem_cons.mp hcv' with rfl | hm
        · exact List.isEmpty_iff.mp hmv
        · exact hrest cv' hm hne
      · simp only [hmv, Bool.false_eq_true, if_false] at hacc
        exact absurd hacc (mergeMissing_ne_nil _ _ _)

theorem missingSeedAux_nil (db : DB) (cur : Option String)
    (reqs : List (String × List (String × List String))) :
    ∀ acc, missingSeedAux db cur reqs acc = [] →
      acc = [] ∧ ∀ tc ∈ reqs, ∀ cv ∈ tc.2, cv.2 ≠ [] →
        missingForColumn db cur tc.1 cv.1 cv.2 = [] := by
  induction reqs with
  | nil =>
    intro acc h
    exact ⟨h, by intro tc htc; cases htc⟩
  | cons tc rest ih =>
    intro acc h
    rw [show missingSeedAux db cur (tc :: rest) acc =
      missingSeedAux db cur rest (missingColsAux db cur tc.1 tc.2 acc) from rfl] at h
    obtain ⟨hcols, hrest⟩ := ih _ h
    obtain ⟨hacc, hcv⟩ := missingColsAux_nil db cur tc.1 tc.2 acc hcols
    refine ⟨hacc, ?_⟩
    intro tc' htc' cv hcv' hne
    rcases List.mem_cons.mp htc' with rfl | hm
    · exact hcv cv hcv' hne
    · exact hrest tc' hm cv hcv' hne

theorem missingSeedPure_nil (db : DB) (cur : Option String)
    (reqs : List (String × List (String × List String)))
    (h : missingSeedPure db cur reqs = []) :
    ∀ tc ∈ reqs, ∀ cv ∈ tc.2, ∀ v ∈ cv.2,
      rowPresent db cur tc.1 cv.1 v = true := by
  intro tc htc cv hcv v hv
  obtain ⟨-, hcols⟩ := missingSeedAux_nil db cur reqs [] h
  have hne : cv.2 ≠ [] := by
    intro hnil
    rw [hnil] at hv
    cases hv
  exact missingForColumn_nil db cur tc.1 cv.1 cv.2 (hcols tc htc cv hcv hne) v hv

theorem missingForColumn_rows_congr (db db' : DB) (hrows : db.rows = db'.rows)
    (cur : Option String) (tbl col : String) (expected : List String) :
    missingForColumn db cur tbl col expected = missingForColumn db' cur tbl col expected := by
  unfold missingForColumn rowPresent
  cases cur with
  | none => rfl
  | some sch => rw [hrows]

theorem missingColsAux_rows_congr (db db' : DB) (hrows : db.rows = db'.rows)
    (cur : Option String) (tbl : String) (cols : List (String × List String)) :
    ∀ acc, missingColsAux db cur tbl cols acc = missingColsAux db' cur tbl cols acc := by
  induction cols with
  | nil => intro acc; rfl
  | cons cv rest ih =>
    intro acc
    show missingColsAux db cur tbl rest _ = missingColsAux db' cur tbl rest _
    rw [missingForColumn_rows_congr db db' hrows cur tbl cv.1 cv.2, ih]

theorem missingSeedPure_rows_congr (db db' : DB) (hrows : db.rows = db'.rows)
    (cur : Option String) (reqs : List (String × List (String × List String))) :
    missingSeedPure db cur reqs = missingSeedPure db' cur reqs := by
  unfold missingSeedPure
  suffices hsuf : ∀ acc, missingSeedAux db cur reqs acc = missingSeedAux db' cur reqs acc from
    hsuf []
  induction reqs with
  | nil => intro acc; rfl
  | cons tc rest ih =>
    intro acc
    show missingSeedAux db cur rest _ = missingSeedAux db' cur rest _
    rw [missingColsAux_rows_congr db db' hrows cur tc.1 tc.2, ih]

theorem missing_seed_values_fst (reqs : List (String × List (String × List String)))
    (st : World) :
    (missing_seed_values reqs st).1 =
      missingSeedPure st.conn.pending st.conn.database reqs := rfl

theorem missing_seed_values_pending (reqs : List (String × List (String × List String)))
    (st : World) : (missing_seed_values reqs st).2.conn.pending = st.conn.pending := rfl

theorem missing_seed_values_committed (reqs : List (String × List (String × List String)))
    (st : World) : (missing_seed_values reqs st).2.conn.committed = st.conn.committed := rfl

theorem missing_seed_values_database (reqs : List (String × List (String × List String)))
    (st : World) : (missing_seed_values reqs st).2.conn.database = st.conn.database := rfl

theorem missing_seed_values_log (reqs : List (String × List (String × List String)))
    (st : World) : (missing_seed_values reqs st).2.log = st.log := rfl

/-! ## Lemmas: `ensure_seed_data` characterisations -/

theorem esd_nowork (reqs : List (String × List (String × List String)))
    (eng : Engine) (fs : FileSys) (st : World) (q : String)
    (hq : q ∈ st.conn.pending.schemas)
    (hmiss : missingSeedPure st.conn.pending (some q) reqs = []) :
    ensureSeedDataWith reqs eng fs st q =
      (.ok false, addLog .seedExists (missing_seed_values reqs (ensure_database st q)).2) := by
  unfold ensureSeedDataWith
  have hed_p : (ensure_database st q).conn.pending = st.conn.pending := by
    rw [ensure_database_pending, addSchema_of_mem _ _ hq]
  have hfst : (missing_seed_values reqs (ensure_database st q)).1 = [] := by
    rw [missing_seed_values_fst, hed_p, ensure_database_database]
    exact hmiss
  rw [if_pos (by rw [hfst]; rfl)]

theorem esd_ok (reqs : List (String × List (String × List String)))
    (eng : Engine) (hm : eng.Monotone) (fs : FileSys) (st : World)
    (q : String) (b : Bool) (st' : World)
    (h : ensureSeedDataWith reqs eng fs st q = (.ok b, st')) :
    DB.Below st.conn.pending st'.conn.pending ∧
    q ∈ st'.conn.pending.schemas ∧
    st'.conn.database = some q ∧
    st'.conn.pending = st'.conn.committed ∧
    missingSeedPure st'.conn.pending (some q) reqs = [] := by
  unfold ensureSeedDataWith at h
  by_cases hempty : (missing_seed_values reqs (ensure_database st q)).1.isEmpty = true
  · rw [if_pos hempty] at h
    simp only [Prod.mk.injEq, Except.ok.injEq] at h
    obtain ⟨-, hst⟩ := h
    subst hst
    have hp : (addLog LogEntry.seedExists
        (missing_seed_values reqs (ensure_database st q)).2).conn.pending =
        addSchema st.conn.pending q := by
      rw [addLog_conn, missing_seed_values_pending, ensure_database_pending]
    refine ⟨?_, ?_, ?_, ?_, ?_⟩
    · rw [hp]; exact addSchema_below _ _
    · rw [hp]; exact addSchema_mem_self _ _
    · rw [addLog_conn, missing_seed_values_database, ensure_database_database]
    · rw [hp, addLog_conn, missing_seed_values_committed, ensure_database_committed]
    · rw [hp]
      have hfst := missing_seed_values_fst reqs (ensure_database st q)
      rw [ensure_database_pending, ensure_database_database] at hfst
      rw [← hfst]
      exact List.isEmpty_iff.mp hempty
  · rw [if_neg hempty] at h
    split at h
    · simp at h
    · rename_i u st3 hexec
      cases u
      by_cases hempty2 : (missing_seed_values reqs st3).1.isEmpty = true
      · rw [if_pos hempty2] at h
        simp only [Prod.mk.injEq, Except.ok.injEq] at h
        obtain ⟨-, hst⟩ := h
        subst hst
        have hdb3 : st3.conn.database = some q := by
          have hd := execute_sql_file_database_some eng fs
            (addLog (.seedMissing (missing_seed_values reqs (ensure_database st q)).1)
              (missing_seed_values reqs (ensure_database st q)).2) SEED_FILE q
            (by rw [addLog_conn, missing_seed_values_database, ensure_database_database])
          rw [hexec] at hd
          exact hd
        have hbelow : DB.Below st.conn.pending st3.conn.pending := by
          have h1 := ensure_database_below st q
          have h2 := (execute_sql_file_ok eng hm fs
            (addLog (.seedMissing (missing_seed_values reqs (ensure_database st q)).1)
              (missing_seed_values reqs (ensure_database st q)).2) SEED_FILE q () st3 hexec).1
          rw [addLog_conn, missing_seed_values_pending] at h2
          exact h1.trans h2
        refine ⟨?_, ?_, ?_, ?_, ?_⟩
        · rw [missing_seed_values_pending]; exact hbelow
        · rw [missing_seed_values_pending]
          have hq1 : q ∈ (ensure_database st q).conn.pending.schemas := by
            rw [ensure_database_pending]; exact addSchema_mem_self _ _
          have h2 := (execute_sql_file_ok eng hm fs
            (addLog (.seedMissing (missing_seed_values reqs (ensure_database st q)).1)
              (missing_seed_values reqs (ensure_database st q)).2) SEED_FILE q () st3 hexec).1
          rw [addLog_conn, missing_seed_values_pending] at h2
          exact h2.1 hq1
        · rw [missing_seed_values_database]; exact hdb3
        · rw [missing_seed_values_pending, missing_seed_values_committed]
          exact (execute_sql_file_ok_pc eng fs _ SEED_FILE q _ st3 hexec).symm
        · rw [missing_seed_values_pending]
          have hfst := missing_seed_values_fst reqs st3
          rw [hdb3] at hfst
          rw [← hfst]
          exact List.isEmpty_iff.mp hempty2
      · rw [if_neg hempty2] at h
        simp at h

theorem esd_ok_false (reqs : List (String × List (String × List String)))
    (eng : Engine) (fs : FileSys) (st : World) (q : String) (st' : World)
    (h : ensureSeedDataWith reqs eng fs st q = (.ok false, st')) :
    missingSeedPure st.conn.pending (some q) reqs = [] ∧
    st'.conn.pending = addSchema st.conn.pending q ∧
    st'.conn.committed = addSchema st.conn.pending q ∧
    st'.conn.database = some q := by
  unfold ensureSeedDataWith at h
  by_cases hempty : (missing_seed_values reqs (ensure_database st q)).1.isEmpty = true
  · rw [if_pos hempty] at h
    simp only [Prod.mk.injEq, Except.ok.injEq] at h
    obtain ⟨-, hst⟩ := h
    subst hst
    refine ⟨?_, ?_, ?_, ?_⟩
    · have hfst := missing_seed_values_fst reqs (ensure_database st q)
      rw [ensure_database_pending, ensure_database_database] at hfst
      have hnil : missingSeedPure (addSchema st.conn.pending q) (some q) reqs = [] := by
        rw [← hfst]; exact List.isEmpty_iff.mp hempty
      rw [← hnil]
      exact missingSeedPure_rows_congr _ _ (addSchema_rows _ _).symm _ _
    · rw [addLog_conn, missing_seed_values_pending, ensure_database_pending]
    · rw [addLog_conn, missing_seed_values_committed, ensure_database_committed]
    · rw [addLog_conn, missing_seed_values_database, ensure_database_database]
  · rw [if_neg hempty] at h
    split at h
    · simp at h
    · rename_i u st3 hexec
      cases u
      by_cases hempty2 : (missing_seed_values reqs st3).1.isEmpty = true
      · rw [if_pos hempty2] at h
        simp at h
      · rw [if_neg hempty2] at h
        simp at h

/-! ## Lemmas: `initialize_database` composition -/

theorem DB.Below.tables_mem {a b : DB} (h : DB.Below a b) {x : String × String}
    (hx : x ∈ a.tables) : x ∈ b.tables := h.2.1 hx

theorem init_ok_established (eng : Engine) (hm : eng.Monotone) (fs : FileSys)
    (st : World) (q : String) (ie b : Bool) (st' : World)
    (h : initialize_database eng fs st q ie = (.ok b, st')) :
    (∀ t ∈ SCHEMA_TABLES, (q, t) ∈ st'.conn.pending.tables) ∧
    (ie = true → ∀ t ∈ EXTENSION_TABLES, (q, t) ∈ st'.conn.pending.tables) ∧
    missingSeedPure st'.conn.pending (some q) SEED_REQUIREMENTS = [] ∧
    q ∈ st'.conn.pending.schemas ∧
    st'.conn.database = some q ∧
    st'.conn.pending = st'.conn.committed := by
  unfold initialize_database at h
  split at h
  · simp at h
  · rename_i c1 st1 heq1
    split at h
    · simp at h
    · rename_i c2 st2 heq2
      split at h
      · simp at h
      · rename_i c3 st3 heq3
        simp only [Prod.mk.injEq, Except.ok.injEq] at h
        obtain ⟨-, hst⟩ := h
        subst hst
        have hbase := ensure_tables_ok_present eng fs st q SCHEMA_TABLES SCHEMA_FILE c1 st1 heq1
        have hmid : DB.Below st1.conn.pending st2.conn.pending ∧
            (ie = true → ∀ t ∈ EXTENSION_TABLES, (q, t) ∈ st2.conn.pending.tables) := by
          by_cases hie : ie = true
          · rw [if_pos hie] at heq2
            split at heq2
            · simp at heq2
            · rename_i c2' st2' heq2'
              simp only [Prod.mk.injEq, Except.ok.injEq] at heq2
              obtain ⟨-, hst2⟩ := heq2
              subst hst2
              exact ⟨ensure_tables_ok_below eng hm fs st1 q _ _ _ _ heq2',
                fun _ => ensure_tables_ok_present eng fs st1 q _ _ _ _ heq2'⟩
          · rw [if_neg hie] at heq2
            simp only [Prod.mk.injEq, Except.ok.injEq] at heq2
            obtain ⟨-, hst2⟩ := heq2
            subst hst2
            exact ⟨DB.Below.refl _, fun hcon => absurd hcon hie⟩
        have heq3' : ensureSeedDataWith SEED_REQUIREMENTS eng fs st2 q = (.ok c3, st3) := heq3
        obtain ⟨hsb, hsq, hsdb, hspc, hsmiss⟩ :=
          esd_ok SEED_REQUIREMENTS eng hm fs st2 q c3 st3 heq3'
        refine ⟨?_, ?_, hsmiss, hsq, hsdb, hspc⟩
        · intro t ht
          exact hsb.tables_mem (hmid.1.tables_mem (hbase t ht))
        · intro hie t ht
          exact hsb.tables_mem (hmid.2 hie t ht)

theorem init_nowork (eng : Engine) (fs : FileSys) (st : World) (q : String) (ie : Bool)
    (hq : q ∈ st.conn.pending.schemas)
    (hdb : st.conn.database = some q)
    (hpc : st.conn.pending = st.conn.committed)
    (hbase : missingTablesPure st.conn.pending q SCHEMA_TABLES = [])
    (hext : ie = true → missingTablesPure st.conn.pending q EXTENSION_TABLES = [])
    (hseed : missingSeedPure st.conn.pending (some q) SEED_REQUIREMENTS = []) :
    (initialize_database eng fs st q ie).1 = .ok false ∧
    (initialize_database eng fs st q ie).2.conn.pending = st.conn.pending ∧
    (initialize_database eng fs st q ie).2.conn.committed = st.conn.committed ∧
    (initialize_database eng fs st q ie).2.conn.database = st.conn.database := by
  unfold initialize_database
  rw [ensure_tables_nowork eng fs st q SCHEMA_TABLES SCHEMA_FILE false hbase]
  dsimp only
  set stA := addLog (LogEntry.tablesExist (fileName SCHEMA_FILE))
    (missing_tables st q SCHEMA_TABLES).2 with hstA
  have hp1 : stA.conn.pending = st.conn.pending := by
    rw [hstA, addLog_conn, missing_tables_pending]
  have hc1 : stA.conn.committed = st.conn.committed := by
    rw [hstA, addLog_conn, missing_tables_committed]
  have hd1 : stA.conn.database = st.conn.database := by
    rw [hstA, addLog_conn, missing_tables_database]
  by_cases hie : ie = true
  · rw [if_pos hie]
    rw [ensure_tables_nowork eng fs stA q EXTENSION_TABLES EXTENSION_FILE false
      (by rw [hp1]; exact hext hie)]
    dsimp only
    set stB := addLog (LogEntry.tablesExist (fileName EXTENSION_FILE))
      (missing_tables stA q EXTENSION_TABLES).2 with hstB
    have hpB : stB.conn.pending = st.conn.pending := by
      rw [hstB, addLog_conn, missing_tables_pending, hp1]
    have hcB : stB.conn.committed = st.conn.committed := by
      rw [hstB, addLog_conn, missing_tables_committed, hc1]
    have hdB : stB.conn.database = st.conn.database := by
      rw [hstB, addLog_conn, missing_tables_database, hd1]
    have hesd : ensure_seed_data eng fs stB q =
        (.ok false, addLog .seedExists
          (missing_seed_values SEED_REQUIREMENTS (ensure_database stB q)).2) :=
      esd_nowork SEED_REQUIREMENTS eng fs stB q (by rw [hpB]; exact hq)
        (by rw [hpB]; exact hseed)
    rw [hesd]
    dsimp only
    refine ⟨rfl, ?_, ?_, ?_⟩
    · rw [addLog_conn, missing_seed_values_pending, ensure_database_pending, hpB,
        addSchema_of_mem _ _ hq]
    · rw [addLog_conn, missing_seed_values_committed, ensure_database_committed, hpB,
        addSchema_of_mem _ _ hq]
      exact hpc
    · rw [addLog_conn, missing_seed_values_database, ensure_database_database]
      exact hdb.symm
  · rw [if_neg hie]
    dsimp only
    have hesd : ensure_seed_data eng fs stA q =
        (.ok false, addLog .seedExists
          (missing_seed_values SEED_REQUIREMENTS (ensure_database stA q)).2) :=
      esd_nowork SEED_REQUIREMENTS eng fs stA q (by rw [hp1]; exact hq)
        (by rw [hp1]; exact hseed)
    rw [hesd]
    dsimp only
    refine ⟨rfl, ?_, ?_, ?_⟩
    · rw [addLog_conn, missing_seed_values_pending, ensure_database_pending, hp1,
        addSchema_of_mem _ _ hq]
    · rw [addLog_conn, missing_seed_values_committed, ensure_database_committed, hp1,
        addSchema_of_mem _ _ hq]
      exact hpc
    · rw [addLog_conn, missing_seed_values_database, ensure_database_database]
      exact hdb.symm

theorem init_ok_false_checks (eng : Engine) (fs : FileSys) (st : World) (q : String)
    (ie : Bool) (st' : World)
    (h : initialize_database eng fs st q ie = (.ok false, st')) :
    missingTablesPure st.conn.pending q SCHEMA_TABLES = [] ∧
    (ie = true → missingTablesPure st.conn.pending q EXTENSION_TABLES = []) ∧
    missingSeedPure st.conn.pending (some q) SEED_REQUIREMENTS = [] := by
  unfold initialize_database at h
  split at h
  · simp at h
  · rename_i c1 st1 heq1
    split at h
    · simp at h
    · rename_i c2 st2 heq2
      split at h
      · simp at h
      · rename_i c3 st3 heq3
        simp only [Prod.mk.injEq, Except.ok.injEq] at h
        obtain ⟨hb, -⟩ := h
        have hc2 : c2 = false := by
          cases c2
          · rfl
          · simp at hb
        have hc3 : c3 = false := by
          cases c3
          · rfl
          · rw [hc2] at hb; simp at hb
        subst hc2
        subst hc3
        have hmid : c1 = false ∧ st2.conn.pending = st1.conn.pending ∧
            (ie = true → missingTablesPure st1.conn.pending q EXTENSION_TABLES = []) := by
          by_cases hie : ie = true
          · rw [if_pos hie] at heq2
            split at heq2
            · simp at heq2
            · rename_i c2' st2' heq2'
              simp only [Prod.mk.injEq, Except.ok.injEq] at heq2
              obtain ⟨hor, hst2⟩ := heq2
              subst hst2
              have hc2' : c2' = false ∧ c1 = false := by
                cases c2'
                · cases c1
                  · exact ⟨rfl, rfl⟩
                  · simp at hor
                · simp at hor
              obtain ⟨hc2', hc1⟩ := hc2'
              subst hc2'
              obtain ⟨hm1, hm2, -, -⟩ :=
                ensure_tables_ok_false eng fs st1 q EXTENSION_TABLES EXTENSION_FILE st2' heq2'
              exact ⟨hc1, hm2, fun _ => hm1⟩
          · rw [if_neg hie] at heq2
            simp only [Prod.mk.injEq, Except.ok.injEq] at heq2
            obtain ⟨hc1, hst2⟩ := heq2
            subst hst2
            exact ⟨hc1, rfl, fun hcon => absurd hcon hie⟩
        obtain ⟨hc1, hp21, hextm⟩ := hmid
        subst hc1
        obtain ⟨hbasem, hp1, -, -⟩ :=
          ensure_tables_ok_false eng fs st q SCHEMA_TABLES SCHEMA_FILE st1 heq1
        have heq3' : ensureSeedDataWith SEED_REQUIREMENTS eng fs st2 q = (.ok false, st3) := heq3
        obtain ⟨hseedm, -, -, -⟩ :=
          esd_ok_false SEED_REQUIREMENTS eng fs st2 q st3 heq3'
        rw [hp21, hp1] at hseedm
        rw [hp1] at hextm
        exact ⟨hbasem, hextm, hseedm⟩

/-! ## Lemmas: remaining helpers for the claims -/

theorem missingTablesPure_nil_of_present (db : DB) (q : String) (ts : List String)
    (hq : q ∈ db.schemas) (h : ∀ t ∈ ts, (q, t) ∈ db.tables) :
    missingTablesPure db q ts = [] := by
  unfold missingTablesPure
  rw [if_pos (List.elem_iff.mpr hq)]
  rw [List.filter_eq_nil_iff]
  intro t ht
  have hc : db.tables.contains (q, t) = true := List.elem_iff.mpr (h t ht)
  simp only [hc, Bool.not_true, Bool.false_eq_true, not_false_eq_true]

theorem rowPresent_mem (db : DB) (q tbl col v : String)
    (h : rowPresent db (some q) tbl col v = true) : (q, tbl, col, v) ∈ db.rows := by
  unfold rowPresent at h
  exact List.elem_iff.mp h

theorem rowPresent_of_mem (db : DB) (q tbl col v : String)
    (h : (q, tbl, col, v) ∈ db.rows) : rowPresent db (some q) tbl col v = true := by
  unfold rowPresent
  exact List.elem_iff.mpr h

theorem esd_database (reqs : List (String × List (String × List String)))
    (eng : Engine) (fs : FileSys) (st : World) (q : String) :
    (ensureSeedDataWith reqs eng fs st q).2.conn.database = some q := by
  unfold ensureSeedDataWith
  by_cases hempty : (missing_seed_values reqs (ensure_database st q)).1.isEmpty = true
  · rw [if_pos hempty]
    rw [addLog_conn, missing_seed_values_database, ensure_database_database]
  · rw [if_neg hempty]
    have hdbx := execute_sql_file_database_some eng fs
      (addLog (.seedMissing (missing_seed_values reqs (ensure_database st q)).1)
        (missing_seed_values reqs (ensure_database st q)).2) SEED_FILE q
      (by rw [addLog_conn, missing_seed_values_database, ensure_database_database])
    split
    · rename_i e st3 hexec
      rw [hexec] at hdbx
      exact hdbx
    · rename_i u st3 hexec
      rw [hexec] at hdbx
      split
      · rw [missing_seed_values_database]; exact hdbx
      · rw [missing_seed_values_database]; exact hdbx

theorem esd_trace (reqs : List (String × List (String × List String)))
    (eng : Engine) (fs : FileSys) (st : World) (q : String) :
    ∃ rest, (ensureSeedDataWith reqs eng fs st q).2.conn.trace =
      st.conn.trace ++
        (DbOp.exec ("CREATE DATABASE IF NOT EXISTS " ++ quote_identifier q) ::
          DbOp.commit :: rest) := by
  obtain ⟨r0, h0⟩ := ensure_database_trace st q
  have hmsv : (missing_seed_values reqs (ensure_database st q)).2.conn.trace =
      (ensure_database st q).conn.trace ++ seedTraceOps reqs := rfl
  unfold ensureSeedDataWith
  by_cases hempty : (missing_seed_values reqs (ensure_database st q)).1.isEmpty = true
  · rw [if_pos hempty]
    refine ⟨r0 ++ seedTraceOps reqs, ?_⟩
    rw [addLog_conn, hmsv, h0]
    simp
  · rw [if_neg hempty]
    obtain ⟨t1, ht1⟩ := execute_sql_file_trace_extends eng fs
      (addLog (.seedMissing (missing_seed_values reqs (ensure_database st q)).1)
        (missing_seed_values reqs (ensure_database st q)).2) SEED_FILE q
    rw [addLog_conn, hmsv, h0] at ht1
    split
    · rename_i e st3 hexec
      rw [hexec] at ht1
      refine ⟨r0 ++ seedTraceOps reqs ++ t1, ?_⟩
      rw [ht1]
      simp
    · rename_i u st3 hexec
      rw [hexec] at ht1
      have hmsv3 : (missing_seed_values reqs st3).2.conn.trace =
          st3.conn.trace ++ seedTraceOps reqs := rfl
      split
      · refine ⟨r0 ++ seedTraceOps reqs ++ t1 ++ seedTraceOps reqs, ?_⟩
        rw [hmsv3, ht1]
        simp
      · refine ⟨r0 ++ seedTraceOps reqs ++ t1 ++ seedTraceOps reqs, ?_⟩
        rw [hmsv3, ht1]
        simp

theorem missingForColumn_pair (db : DB) (q tbl col a b : String)
    (hab : a ≠ b)
    (ha : rowPresent db (some q) tbl col a = true)
    (hb : rowPresent db (some q) tbl col b = false) :
    missingForColumn db (some q) tbl col [a, b] = [b] := by
  have hdedup : dedupStr [a, b] = [a, b] := by
    show (if (dedupStr [b]).contains a then dedupStr [b] else a :: dedupStr [b]) = [a, b]
    have hb1 : dedupStr [b] = [b] := rfl
    rw [hb1]
    rw [if_neg (by simp [List.elem_iff]; exact hab)]
  have hsd : sortedDedup [a, b] = [a, b] ∨ sortedDedup [a, b] = [b, a] := by
    unfold sortedDedup
    rw [hdedup]
    show (insertSorted a (insertSorted b []) = [a, b] ∨ _)
    show (insertSorted a [b] = [a, b] ∨ insertSorted a [b] = [b, a])
    unfold insertSorted
    by_cases hle : strLe a b = true
    · rw [if_pos hle]; exact Or.inl rfl
    · rw [if_neg hle]; exact Or.inr rfl
  unfold missingForColumn
  rcases hsd with hsd | hsd
  · rw [hsd]
    show List.filter _ [a, b] = [b]
    rw [List.filter_cons, List.filter_cons]
    simp [ha, hb]
  · rw [hsd]
    show List.filter _ [b, a] = [b]
    rw [List.filter_cons, List.filter_cons]
    simp [ha, hb]

theorem missingSeedPure_singleton_nil (db : DB) (q tbl col a b : String)
    (ha : rowPresent db (some q) tbl col a = true)
    (hb : rowPresent db (some q) tbl col b = true) :
    missingSeedPure db (some q) [(tbl, [(col, [a, b])])] = [] := by
  have hmv : missingForColumn db (some q) tbl col [a, b] = [] := by
    unfold missingForColumn
    rw [List.filter_eq_nil_iff]
    intro v hv
    have hv' : v ∈ [a, b] := (mem_sortedDedup v [a, b]).mp hv
    simp only [List.mem_cons, List.not_mem_nil, or_false] at hv'
    rcases hv' with rfl | rfl
    · simp [ha]
    · simp [hb]
  show missingColsAux db (some q) tbl [(col, [a, b])] [] = []
  show missingColsAux db (some q) tbl [] _ = []
  rw [show ((col, [a, b]) : String × List String).2.isEmpty = false from rfl]
  simp only [Bool.false_eq_true, if_false]
  rw [hmv]
  rfl

/-! ## The claims -/

/-- Counterexample to claim C3 as stated.  On the spec's own example input
the splitter yields exactly two statements, but the first statement *does*
contain the semicolon that appears inside the single-quoted string
(`'a;b'` is preserved verbatim), so "neither of which contains the
semicolons that appear inside the quoted string or inside the comment" is
false. -/
theorem c3_quoted_semicolon_retained :
    split_sql_statements "INSERT INTO t VALUES ('a;b'); -- c;d\nINSERT INTO t2 VALUES (1);"
      = ["INSERT INTO t VALUES ('a;b')", "INSERT INTO t2 VALUES (1)"] ∧
    ¬ (∀ t ∈ split_sql_statements
        "INSERT INTO t VALUES ('a;b'); -- c;d\nINSERT INTO t2 VALUES (1);",
        Char.ofNat 59 ∉ t.data) := by
  constructor
  · decide
  · decide

/-- C3 (amended): `_split_sql_statements` returns an ordered list of
trimmed, non-empty statement strings; on the example input it yields
exactly the two statements, with the semicolons inside the quoted string
and the line comment not acting as statement boundaries: the quoted
semicolon is retained inside the first statement and the comment (with its
semicolon) is dropped entirely. -/
theorem c3_splitter_statements :
    (∀ sql : String, ∀ t ∈ split_sql_statements sql, t ≠ "" ∧ pyStrip t = t) ∧
    split_sql_statements "INSERT INTO t VALUES ('a;b'); -- c;d\nINSERT INTO t2 VALUES (1);"
      = ["INSERT INTO t VALUES ('a;b')", "INSERT INTO t2 VALUES (1)"] := by
  constructor
  · intro sql t ht
    exact split_sql_statements_stripped sql t ht
  · decide

/-- Witness for C3's amended theorem at a concrete statement of the example
input. -/
theorem c3_splitter_statements_witness :
    ("INSERT INTO t VALUES ('a;b')" ∈ split_sql_statements
      "INSERT INTO t VALUES ('a;b'); -- c;d\nINSERT INTO t2 VALUES (1);") ∧
    ("INSERT INTO t VALUES ('a;b')" ≠ "" ∧
      pyStrip "INSERT INTO t VALUES ('a;b')" = "INSERT INTO t VALUES ('a;b')") :=
  ⟨by decide,
   c3_splitter_statements.1 "INSERT INTO t VALUES ('a;b'); -- c;d\nINSERT INTO t2 VALUES (1);"
     "INSERT INTO t VALUES ('a;b')" (by decide)⟩

/-- C8: `_split_sql_statements` is a total function; whatever state the
scanner ends in (including inside an unterminated quote or block comment),
the text accumulated after the last statement boundary is flushed as a
final statement exactly when it is non-empty after stripping.  The
concrete cases exercise an unterminated single quote, an unterminated
block comment, an input with no trailing semicolon, and a trailing
fragment that is whitespace-only. -/
theorem c8_trailing_fragment_flushed :
    (∀ sql : String,
      split_sql_statements sql =
        flushStmt (scanAll initScan sql.data).stmt (scanAll initScan sql.data).acc) ∧
    (∀ stmt acc, flushStmt stmt acc =
        if (pyStripList stmt).isEmpty then acc else acc ++ [String.mk (pyStripList stmt)]) ∧
    split_sql_statements "INSERT INTO t VALUES ('abc" = ["INSERT INTO t VALUES ('abc"] ∧
    split_sql_statements "a; b /* unterminated ; comment" = ["a", "b"] ∧
    split_sql_statements "SELECT 1 FROM t" = ["SELECT 1 FROM t"] ∧
    split_sql_statements "a;  " = ["a"] :=
  ⟨fun _ => rfl, fun _ _ => rfl, by decide, by decide, by decide, by decide⟩

/-- Counterexample to claim C6 as stated.  The statement `USE<TAB>otherdb`
case-insensitively begins with `USE`, but the executor's test is
`startswith("use ")` on the stripped, lower-cased statement — with a
literal space — so this statement is not replaced wholesale: it falls
through to the literal-substitution branch and is executed unchanged. -/
theorem c6_use_tab_not_rewritten :
    startsWithList "use".data ("USE\totherdb".data.map toLowerChar) = true ∧
    classifyStatement "USE\totherdb" = .plain ∧
    executedText "shopdb" "USE\totherdb" = "USE\totherdb" ∧
    executedText "shopdb" "USE\totherdb" ≠ "USE `shopdb`" := by
  refine ⟨by decide, by decide, by decide, by decide⟩

/-- C6 (amended): every statement whose stripped, lower-cased text begins
with `"use "` (`USE` followed by a space, case-insensitively) is replaced
wholesale by `USE <quoted-schema>`; the original statement text after
`USE` is discarded entirely, regardless of the original name's casing. -/
theorem c6_use_statement_replaced (schemaName s : String)
    (h : startsWithList "use ".data (normalizeStmt s) = true) :
    classifyStatement s = .useStmt ∧
    executedText schemaName s = "USE " ++ quote_identifier schemaName := by
  have hc : classifyStatement s = .useStmt := by
    unfold classifyStatement
    rw [if_pos h]
  refine ⟨hc, ?_⟩
  unfold executedText
  rw [hc]

/-- Witness for C6's amended theorem: `USE floreriadb` (and a different
casing of it) against schema `shopdb` executes `` USE `shopdb` ``. -/
theorem c6_use_statement_replaced_witness :
    (startsWithList "use ".data (normalizeStmt "USE floreriadb") = true ∧
      classifyStatement "USE floreriadb" = .useStmt ∧
      executedText "shopdb" "USE floreriadb" = "USE " ++ quote_identifier "shopdb") ∧
    (startsWithList "use ".data (normalizeStmt "use FLORERIADB") = true ∧
      executedText "shopdb" "use FLORERIADB" = "USE " ++ quote_identifier "shopdb") :=
  ⟨⟨by decide, (c6_use_statement_replaced "shopdb" "USE floreriadb" (by decide)).1,
    (c6_use_statement_replaced "shopdb" "USE floreriadb" (by decide)).2⟩,
   ⟨by decide, (c6_use_statement_replaced "shopdb" "use FLORERIADB" (by decide)).2⟩⟩

/-- C10: every call to `ensure_seed_data` — including one that returns
`false` — first sends `CREATE DATABASE IF NOT EXISTS` over the borrowed
connection followed by a commit, and afterwards the connection's selected
default database equals the target schema, whatever the outcome. -/
theorem c10_seed_always_prepares_connection (eng : Engine) (fs : FileSys)
    (st : World) (schemaName : String) :
    (∃ rest, (ensure_seed_data eng fs st schemaName).2.conn.trace =
        st.conn.trace ++
          (DbOp.exec ("CREATE DATABASE IF NOT EXISTS " ++ quote_identifier schemaName) ::
            DbOp.commit :: rest)) ∧
    (ensure_seed_data eng fs st schemaName).2.conn.database = some schemaName :=
  ⟨esd_trace SEED_REQUIREMENTS eng fs st schemaName,
   esd_database SEED_REQUIREMENTS eng fs st schemaName⟩

/-- Counterexample to claim C9 as stated.  With no SQL files on disk and an
empty server, the `ensure_tables` stage does fail with the file-not-found
error, but connection work for the stage has already been attempted before
the error is raised: the catalog probe and the `CREATE DATABASE` statement
appear in the connection trace at the point of failure. -/
theorem c9_connection_work_before_file_check :
    (ensure_tables idEngine noFiles emptyWorld "newshop" SCHEMA_TABLES SCHEMA_FILE false).1
      = .error (.fileNotFound SCHEMA_FILE) ∧
    DbOp.exec "CREATE DATABASE IF NOT EXISTS `newshop`"
      ∈ (ensure_tables idEngine noFiles emptyWorld "newshop" SCHEMA_TABLES
          SCHEMA_FILE false).2.conn.trace ∧
    DbOp.query schemataQuery ["newshop"]
      ∈ (ensure_tables idEngine noFiles emptyWorld "newshop" SCHEMA_TABLES
          SCHEMA_FILE false).2.conn.trace := by
  refine ⟨by decide, by decide, by decide⟩

/-- C9 (amended): a missing SQL file makes `_execute_sql_file` fail with a
file-not-found error before any connection work for that file's replay (the
world is returned untouched: no statement from the file is executed, nothing
is committed or rolled back), and `ensure_tables` propagates that error
unchanged without retrying; stage-level inspection queries and the database
creation do occur before the check. -/
theorem c9_missing_file_fatal (eng : Engine) (fs : FileSys) (st : World)
    (path schemaName : String) (hfs : fs path = none) :
    execute_sql_file eng fs st path schemaName = (.error (.fileNotFound path), st) ∧
    (∀ tables f, fs f = none →
      missingTablesPure st.conn.pending schemaName tables ≠ [] →
      (ensure_tables eng fs st schemaName tables f false).1 = .error (.fileNotFound f)) := by
  constructor
  · unfold execute_sql_file
    rw [hfs]
  · intro tables f hf hm
    exact ensure_tables_file_missing eng fs st schemaName tables f hf hm

/-- Witness for C9's amended theorem on a concrete empty world with no
files. -/
theorem c9_missing_file_fatal_witness :
    noFiles SCHEMA_FILE = none ∧
    execute_sql_file idEngine noFiles emptyWorld SCHEMA_FILE "newshop"
      = (.error (.fileNotFound SCHEMA_FILE), emptyWorld) ∧
    (ensure_tables idEngine noFiles emptyWorld "newshop" SCHEMA_TABLES SCHEMA_FILE false).1
      = .error (.fileNotFound SCHEMA_FILE) :=
  ⟨rfl,
   (c9_missing_file_fatal idEngine noFiles emptyWorld SCHEMA_FILE "newshop" rfl).1,
   (c9_missing_file_fatal idEngine noFiles emptyWorld SCHEMA_FILE "newshop" rfl).2
     SCHEMA_TABLES SCHEMA_FILE rfl (by decide)⟩

/-- C5: when replaying an existing SQL file raises any error other than the
tolerated duplicate-index error, `_execute_sql_file` rolls back the whole
transaction (given that the connection was clean at the start of the
file's replay — as it is at every call site, which commits in
`_ensure_database` just before — the pending catalog is restored to the
replay-start state, and the last operation on the wire is the rollback),
and the original MySQL error is re-raised unchanged with the offending
file path recorded in the log for diagnostics. -/
theorem c5_fatal_error_rolls_back (eng : Engine) (fs : FileSys) (st : World)
    (path schemaName sql : String) (e : Err) (st' : World)
    (hfile : fs path = some sql)
    (hpc : st.conn.pending = st.conn.committed)
    (h : execute_sql_file eng fs st path schemaName = (.error e, st')) :
    (∃ n m, e = .mysql n m ∧ n ≠ 1061) ∧
    st'.conn.pending = st.conn.pending ∧
    st'.conn.committed = st.conn.committed ∧
    LogEntry.execError path ∈ st'.log ∧
    st'.conn.trace.getLast? = some .rollback := by
  rcases execute_sql_file_error eng fs st path schemaName e st' h with
    ⟨hnone, -, -⟩ | ⟨n, m, hnm, hn, hp, hc, hl, ht⟩
  · rw [hfile] at hnone
    cases hnone
  · exact ⟨⟨n, m, hnm, hn⟩, by rw [hp, ← hpc], hc, hl, ht⟩

/-- Witness for C5 on a concrete one-statement file whose single statement
fails with MySQL error 42. -/
theorem c5_fatal_error_rolls_back_witness :
    (∃ n m, (Err.mysql 42 "boom") = Err.mysql n m ∧ n ≠ 1061) ∧
    (execute_sql_file failEngine allFiles emptyWorld SCHEMA_FILE "newshop").2.conn.pending
      = emptyWorld.conn.pending ∧
    (execute_sql_file failEngine allFiles emptyWorld SCHEMA_FILE "newshop").2.conn.committed
      = emptyWorld.conn.committed ∧
    LogEntry.execError SCHEMA_FILE
      ∈ (execute_sql_file failEngine allFiles emptyWorld SCHEMA_FILE "newshop").2.log ∧
    (execute_sql_file failEngine allFiles emptyWorld SCHEMA_FILE
      "newshop").2.conn.trace.getLast? = some .rollback :=
  c5_fatal_error_rolls_back failEngine allFiles emptyWorld SCHEMA_FILE "newshop" "X;"
    (.mysql 42 "boom")
    (execute_sql_file failEngine allFiles emptyWorld SCHEMA_FILE "newshop").2
    rfl rfl
    (by
      have h1 : (execute_sql_file failEngine allFiles emptyWorld SCHEMA_FILE "newshop").1
          = .error (.mysql 42 "boom") := by decide
      rw [← h1])

/-- C4: a statement that raises the duplicate-index error (errno 1061) is
logged and skipped, and the replay continues on the remaining statements
exactly as if the failed statement had succeeded; when every error raised
during a file's replay is of that tolerated class, every statement of the
file is executed in order and the batch is committed at the end. -/
theorem c4_duplicate_index_tolerated :
    (∀ (eng : Engine) (schemaName path : String) (st : World) (s : String)
        (rest : List String) (m : String),
      classifyStatement s = .plain →
      eng.run st.conn.pending st.conn.database (executedText schemaName s) = .err 1061 m →
      replayLoop eng schemaName path (s :: rest) st
        = replayLoop eng schemaName path rest
            { st with
                conn := { st.conn with
                  trace := st.conn.trace ++ [.exec (executedText schemaName s)] },
                log := st.log ++ [.dupIndexSkipped (fileName path) m] }) ∧
    (∀ (eng : Engine) (fs : FileSys) (st : World) (path schemaName sql : String),
      fs path = some sql →
      (∀ db cur s n m, s ∈ split_sql_statements sql →
        eng.run db cur (executedText schemaName s) = .err n m → n = 1061) →
      ∃ st', execute_sql_file eng fs st path schemaName = (.ok (), st') ∧
        st'.conn.trace = st.conn.trace
          ++ (split_sql_statements sql).map (fun s => DbOp.exec (executedText schemaName s))
          ++ [.commit] ∧
        st'.conn.committed = st'.conn.pending) := by
  constructor
  · intro eng schemaName path st s rest m hclass hrun
    have happ : applyStatement eng schemaName path st s =
        (.ok (), { st with
            conn := { st.conn with
              trace := st.conn.trace ++ [.exec (executedText schemaName s)] },
            log := st.log ++ [.dupIndexSkipped (fileName path) m] }) := by
      unfold applyStatement
      rw [hclass]
      dsimp only
      rw [hrun]
      dsimp only
      rw [if_pos rfl]
    simp only [replayLoop]
    rw [happ]
  · intro eng fs st path schemaName sql hfile htol
    obtain ⟨hok, htr⟩ := replayLoop_tolerated eng schemaName path
      (split_sql_statements sql) st htol
    rcases hloop : replayLoop eng schemaName path (split_sql_statements sql) st with ⟨r, st1⟩
    rw [hloop] at hok htr
    cases r with
    | error e => simp at hok
    | ok u =>
      cases u
      have htr' : st1.conn.trace = st.conn.trace
          ++ (split_sql_statements sql).map (fun s => DbOp.exec (executedText schemaName s)) :=
        htr
      refine ⟨{ st1 with conn := { st1.conn with
          committed := st1.conn.pending,
          trace := st1.conn.trace ++ [DbOp.commit] } }, ?_, ?_, rfl⟩
      · unfold execute_sql_file
        rw [hfile]
        dsimp only
        rw [hloop]
      · show st1.conn.trace ++ [DbOp.commit] = _
        rw [htr']

/-- Witness for C4: on the script `A;B;C;` against `dupEngine` (which
rejects exactly statement `B` with error 1061), the failing statement is
logged and skipped, the remaining statement still executes, and the batch
commits. -/
theorem c4_duplicate_index_tolerated_witness :
    (classifyStatement "B" = .plain ∧
     dupEngine.run emptyWorld.conn.pending emptyWorld.conn.database
        (executedText "newshop" "B") = .err 1061 "dup" ∧
     replayLoop dupEngine "newshop" SCHEMA_FILE ["B", "C"] emptyWorld
       = replayLoop dupEngine "newshop" SCHEMA_FILE ["C"]
           { emptyWorld with
               conn := { emptyWorld.conn with
                 trace := emptyWorld.conn.trace ++ [.exec (executedText "newshop" "B")] },
               log := emptyWorld.log ++ [.dupIndexSkipped (fileName SCHEMA_FILE) "dup"] }) ∧
    (fileABC SCHEMA_FILE = some "A;B;C;" ∧
     ∃ st', execute_sql_file dupEngine fileABC emptyWorld SCHEMA_FILE "newshop"
        = (.ok (), st') ∧
       st'.conn.trace = emptyWorld.conn.trace
         ++ (split_sql_statements "A;B;C;").map
             (fun s => DbOp.exec (executedText "newshop" s))
         ++ [.commit] ∧
       st'.conn.committed = st'.conn.pending) :=
  ⟨⟨by decide, by decide,
    c4_duplicate_index_tolerated.1 dupEngine "newshop" SCHEMA_FILE emptyWorld "B" ["C"] "dup"
      (by decide) (by decide)⟩,
   ⟨rfl,
    c4_duplicate_index_tolerated.2 dupEngine fileABC emptyWorld SCHEMA_FILE "newshop" "A;B;C;"
      rfl
      (fun db cur s n m hs hrun => by
        have hs' : s = "A" ∨ s = "B" ∨ s = "C" := by
          have : split_sql_statements "A;B;C;" = ["A", "B", "C"] := by decide
          rw [this] at hs
          simpa using hs
        rcases hs' with rfl | rfl | rfl
        · have hA : executedText "newshop" "A" = "A" := by decide
          rw [hA] at hrun
          have : dupEngine.run db cur "A" = .ok db := by
            show (if ("A" : String) = "B" then ExecOutcome.err 1061 "dup" else .ok db) = .ok db
            rw [if_neg (by decide)]
          rw [this] at hrun
          cases hrun
        · have hB : executedText "newshop" "B" = "B" := by decide
          rw [hB] at hrun
          have : dupEngine.run db cur "B" = .err 1061 "dup" := by
            show (if ("B" : String) = "B" then ExecOutcome.err 1061 "dup" else .ok db)
              = .err 1061 "dup"
            rw [if_pos rfl]
          rw [this] at hrun
          injection hrun with h1 h2
          exact h1.symm
        · have hC : executedText "newshop" "C" = "C" := by decide
          rw [hC] at hrun
          have : dupEngine.run db cur "C" = .ok db := by
            show (if ("C" : String) = "B" then ExecOutcome.err 1061 "dup" else .ok db) = .ok db
            rw [if_neg (by decide)]
          rw [this] at hrun
          cases hrun)⟩⟩

/-- C7: with a requirement map demanding values `{a, b}` in a column and
the table currently containing only `a`, the seed reconciler detects
`{b}` as the missing set; after the seed file has been executed it raises
the fatal reconciliation error naming the still-absent table/value pairs
if and only if some required value is still absent — in particular it
does not raise when `b` is now present even though `a` already existed.
(`ensure_seed_data` is `ensureSeedDataWith` at `SEED_REQUIREMENTS` by
definition.) -/
theorem c7_seed_convergence (eng : Engine) (fs : FileSys) (st : World)
    (schemaName tbl col a b : String)
    (hab : a ≠ b)
    (hA : (schemaName, tbl, col, a) ∈ st.conn.pending.rows)
    (hB : (schemaName, tbl, col, b) ∉ st.conn.pending.rows) :
    (missing_seed_values [(tbl, [(col, [a, b])])] (ensure_database st schemaName)).1
      = [(tbl, [b])] ∧
    ∀ st3, execute_sql_file eng fs
        (addLog (.seedMissing [(tbl, [b])])
          (missing_seed_values [(tbl, [(col, [a, b])])] (ensure_database st schemaName)).2)
        SEED_FILE schemaName = (.ok (), st3) →
      ((missingSeedPure st3.conn.pending (some schemaName) [(tbl, [(col, [a, b])])] = [] →
        ensureSeedDataWith [(tbl, [(col, [a, b])])] eng fs st schemaName
          = (.ok true, (missing_seed_values [(tbl, [(col, [a, b])])] st3).2)) ∧
       (missingSeedPure st3.conn.pending (some schemaName) [(tbl, [(col, [a, b])])] ≠ [] →
        ensureSeedDataWith [(tbl, [(col, [a, b])])] eng fs st schemaName
          = (.error (.seedPersist
              (missingSeedPure st3.conn.pending (some schemaName) [(tbl, [(col, [a, b])])])),
             (missing_seed_values [(tbl, [(col, [a, b])])] st3).2)) ∧
       ((schemaName, tbl, col, a) ∈ st3.conn.pending.rows →
        (schemaName, tbl, col, b) ∈ st3.conn.pending.rows →
        (ensureSeedDataWith [(tbl, [(col, [a, b])])] eng fs st schemaName).1 = .ok true)) := by
  have hra : rowPresent (addSchema st.conn.pending schemaName) (some schemaName)
      tbl col a = true := by
    unfold rowPresent
    rw [addSchema_rows]
    exact List.elem_iff.mpr hA
  have hrb : rowPresent (addSchema st.conn.pending schemaName) (some schemaName)
      tbl col b = false := by
    unfold rowPresent
    dsimp only
    rw [addSchema_rows]
    cases hc : st.conn.pending.rows.contains (schemaName, tbl, col, b)
    · rfl
    · exact absurd (List.elem_iff.mp hc) hB
  have hmv := missingForColumn_pair (addSchema st.conn.pending schemaName) schemaName
    tbl col a b hab hra hrb
  have hdet : (missing_seed_values [(tbl, [(col, [a, b])])] (ensure_database st schemaName)).1
      = [(tbl, [b])] := by
    rw [missing_seed_values_fst, ensure_database_pending, ensure_database_database]
    have hstep : missingSeedPure (addSchema st.conn.pending schemaName) (some schemaName)
        [(tbl, [(col, [a, b])])] =
        (if (missingForColumn (addSchema st.conn.pending schemaName) (some schemaName)
            tbl col [a, b]).isEmpty then ([] : List (String × List String))
         else mergeMissing [] tbl (missingForColumn (addSchema st.conn.pending schemaName)
            (some schemaName) tbl col [a, b])) := rfl
    rw [hstep, hmv]
    rfl
  refine ⟨hdet, ?_⟩
  intro st3 h3
  have hne : ¬ ((missing_seed_values [(tbl, [(col, [a, b])])]
      (ensure_database st schemaName)).1.isEmpty = true) := by
    rw [hdet]
    simp
  have hdb3 : st3.conn.database = some schemaName := by
    have hd := execute_sql_file_database_some eng fs
      (addLog (.seedMissing [(tbl, [b])])
        (missing_seed_values [(tbl, [(col, [a, b])])] (ensure_database st schemaName)).2)
      SEED_FILE schemaName
      (by rw [addLog_conn, missing_seed_values_database, ensure_database_database])
    rw [h3] at hd
    exact hd
  have hrun : ensureSeedDataWith [(tbl, [(col, [a, b])])] eng fs st schemaName =
      (if (missing_seed_values [(tbl, [(col, [a, b])])] st3).1.isEmpty
       then (.ok true, (missing_seed_values [(tbl, [(col, [a, b])])] st3).2)
       else (.error (.seedPersist (missing_seed_values [(tbl, [(col, [a, b])])] st3).1),
             (missing_seed_values [(tbl, [(col, [a, b])])] st3).2)) := by
    unfold ensureSeedDataWith
    rw [if_neg hne, hdet, h3]
  have hfst3 : (missing_seed_values [(tbl, [(col, [a, b])])] st3).1
      = missingSeedPure st3.conn.pending (some schemaName) [(tbl, [(col, [a, b])])] := by
    rw [missing_seed_values_fst, hdb3]
  refine ⟨?_, ?_, ?_⟩
  · intro hnil
    rw [hrun, hfst3, hnil]
    rfl
  · intro hnenil
    rw [hrun, hfst3, if_neg (by simp only [List.isEmpty_iff]; exact hnenil)]
  · intro ha3 hb3
    have hnil := missingSeedPure_singleton_nil st3.conn.pending schemaName tbl col a b
      (rowPresent_of_mem _ _ _ _ _ ha3) (rowPresent_of_mem _ _ _ _ _ hb3)
    rw [hrun, hfst3, hnil]
    rfl

/-- Witness for C7: `newshop.roles` holds only `ADMIN`; the reconciler
detects `SALES` as missing, and with an engine whose seed replay inserts
the `SALES` row the run returns "change applied" without raising even
though `ADMIN` pre-existed. -/
theorem c7_seed_convergence_witness :
    ("ADMIN" : String) ≠ "SALES" ∧
    ("newshop", "roles", "name", "ADMIN") ∈ seedWorld.conn.pending.rows ∧
    (("newshop", "roles", "name", "SALES") ∈ seedWorld.conn.pending.rows → False) ∧
    (missing_seed_values [("roles", [("name", ["ADMIN", "SALES"])])]
      (ensure_database seedWorld "newshop")).1 = [("roles", ["SALES"])] ∧
    (ensureSeedDataWith [("roles", [("name", ["ADMIN", "SALES"])])] salesEngine allFiles
      seedWorld "newshop").1 = .ok true := by
  have h := c7_seed_convergence salesEngine allFiles seedWorld "newshop" "roles" "name"
    "ADMIN" "SALES" (by decide) (by decide) (by decide)
  refine ⟨by decide, by decide, by decide, h.1, ?_⟩
  have h1 : (execute_sql_file salesEngine allFiles
      (addLog (.seedMissing [("roles", ["SALES"])])
        (missing_seed_values [("roles", [("name", ["ADMIN", "SALES"])])]
          (ensure_database seedWorld "newshop")).2) SEED_FILE "newshop").1 = .ok () := by
    decide
  have h3 : execute_sql_file salesEngine allFiles
      (addLog (.seedMissing [("roles", ["SALES"])])
        (missing_seed_values [("roles", [("name", ["ADMIN", "SALES"])])]
          (ensure_database seedWorld "newshop")).2) SEED_FILE "newshop"
      = (.ok (), (execute_sql_file salesEngine allFiles
          (addLog (.seedMissing [("roles", ["SALES"])])
            (missing_seed_values [("roles", [("name", ["ADMIN", "SALES"])])]
              (ensure_database seedWorld "newshop")).2) SEED_FILE "newshop").2) := by
    rw [← h1]
  exact (h.2 _ h3).2.2 (by decide) (by decide)

/-- C1: for every starting state and non-empty schema name, if
`initialize_database` returns without raising then every base table — and,
when the extension is requested, every extension table — exists in the
target schema, and every value required by `SEED_REQUIREMENTS` is present
in its table's column.  The engine is assumed monotone, reflecting the
spec's contract for the repository's DDL/DML script files (which are not
under `src/`). -/
theorem c1_initialize_establishes_invariant (eng : Engine) (fs : FileSys) (st : World)
    (schemaName : String) (includeExtension b : Bool) (st' : World)
    (hm : eng.Monotone)
    (hq : schemaName ≠ "")
    (hrun : initialize_database eng fs st schemaName includeExtension = (.ok b, st')) :
    (∀ t ∈ SCHEMA_TABLES, (schemaName, t) ∈ st'.conn.pending.tables) ∧
    (includeExtension = true →
      ∀ t ∈ EXTENSION_TABLES, (schemaName, t) ∈ st'.conn.pending.tables) ∧
    (∀ tc ∈ SEED_REQUIREMENTS, ∀ cv ∈ tc.2, ∀ v ∈ cv.2,
      (schemaName, tc.1, cv.1, v) ∈ st'.conn.pending.rows) := by
  obtain ⟨hbase, hext, hseed, -, -, -⟩ :=
    init_ok_established eng hm fs st schemaName includeExtension b st' hrun
  refine ⟨hbase, hext, ?_⟩
  intro tc htc cv hcv v hv
  exact rowPresent_mem _ _ _ _ _ (missingSeedPure_nil _ _ _ hseed tc htc cv hcv v hv)

/-- Witness for C1 on an already-bootstrapped `newshop` world with the
no-effect engine. -/
theorem c1_initialize_establishes_invariant_witness :
    idEngine.Monotone ∧ ("newshop" : String) ≠ "" ∧
    ((∀ t ∈ SCHEMA_TABLES, ("newshop", t) ∈
        (initialize_database idEngine allFiles readyWorld "newshop"
          true).2.conn.pending.tables) ∧
     (true = true → ∀ t ∈ EXTENSION_TABLES, ("newshop", t) ∈
        (initialize_database idEngine allFiles readyWorld "newshop"
          true).2.conn.pending.tables) ∧
     (∀ tc ∈ SEED_REQUIREMENTS, ∀ cv ∈ tc.2, ∀ v ∈ cv.2,
        ("newshop", tc.1, cv.1, v) ∈
          (initialize_database idEngine allFiles readyWorld "newshop"
            true).2.conn.pending.rows)) := by
  have hm : idEngine.Monotone := fun db cur sql db' h => by
    injection h with h'
    rw [← h']
    exact DB.Below.refl db
  refine ⟨hm, by decide, ?_⟩
  have h1 : (initialize_database idEngine allFiles readyWorld "newshop" true).1
      = .ok false := by decide
  exact c1_initialize_establishes_invariant idEngine allFiles readyWorld "newshop" true false
    (initialize_database idEngine allFiles readyWorld "newshop" true).2 hm (by decide)
    (by rw [← h1])

/-- C2: if the first `initialize_database` call has work to do and returns
without raising, it returns `true`; a second call against the resulting
state returns `false` and leaves the catalog (pending and committed
contents and the selected database) identical to the state after the
first call.  The engine is assumed monotone as in C1. -/
theorem c2_initialize_idempotent (eng : Engine) (fs : FileSys) (st : World)
    (schemaName : String) (includeExtension b1 : Bool) (st1 : World)
    (hm : eng.Monotone)
    (hwork : workToDo st schemaName includeExtension)
    (hrun : initialize_database eng fs st schemaName includeExtension = (.ok b1, st1)) :
    b1 = true ∧
    (initialize_database eng fs st1 schemaName includeExtension).1 = .ok false ∧
    (initialize_database eng fs st1 schemaName includeExtension).2.conn.pending
      = st1.conn.pending ∧
    (initialize_database eng fs st1 schemaName includeExtension).2.conn.committed
      = st1.conn.committed ∧
    (initialize_database eng fs st1 schemaName includeExtension).2.conn.database
      = st1.conn.database := by
  have hb1 : b1 = true := by
    cases hb : b1
    · exfalso
      rw [hb] at hrun
      obtain ⟨h1, h2, h3⟩ := init_ok_false_checks eng fs st schemaName includeExtension st1 hrun
      rcases hwork with hw | ⟨hie, hw⟩ | hw
      · exact hw h1
      · exact hw (h2 hie)
      · exact hw h3
    · rfl
  obtain ⟨hbase, hext, hseedm, hq, hdb, hpc⟩ :=
    init_ok_established eng hm fs st schemaName includeExtension b1 st1 hrun
  have hnw := init_nowork eng fs st1 schemaName includeExtension hq hdb hpc
    (missingTablesPure_nil_of_present _ _ _ hq hbase)
    (fun hie => missingTablesPure_nil_of_present _ _ _ hq (hext hie))
    hseedm
  exact ⟨hb1, hnw.1, hnw.2.1, hnw.2.2.1, hnw.2.2.2⟩

/-- Witness for C2: an empty server with an engine that installs all the
`newshop` objects — the first call applies changes and reports it, the
second call reports "no change" and leaves the catalog untouched. -/
theorem c2_initialize_idempotent_witness :
    installEngine.Monotone ∧
    workToDo emptyWorld "newshop" true ∧
    (true = true ∧
     (initialize_database installEngine allFiles
        (initialize_database installEngine allFiles emptyWorld "newshop" true).2
        "newshop" true).1 = .ok false ∧
     (initialize_database installEngine allFiles
        (initialize_database installEngine allFiles emptyWorld "newshop" true).2
        "newshop" true).2.conn.pending
       = (initialize_database installEngine allFiles emptyWorld "newshop"
            true).2.conn.pending ∧
     (initialize_database installEngine allFiles
        (initialize_database installEngine allFiles emptyWorld "newshop" true).2
        "newshop" true).2.conn.committed
       = (initialize_database installEngine allFiles emptyWorld "newshop"
            true).2.conn.committed ∧
     (initialize_database installEngine allFiles
        (initialize_database installEngine allFiles emptyWorld "newshop" true).2
        "newshop" true).2.conn.database
       = (initialize_database installEngine allFiles emptyWorld "newshop"
            true).2.conn.database) := by
  have hm : installEngine.Monotone := fun db cur sql db' h => by
    injection h with h'
    rw [← h']
    exact ⟨List.Subset.refl _, List.subset_append_left _ _, List.subset_append_left _ _⟩
  have hw : workToDo emptyWorld "newshop" true := Or.inl (by decide)
  refine ⟨hm, hw, ?_⟩
  have h1 : (initialize_database installEngine allFiles emptyWorld "newshop" true).1
      = .ok true := by decide
  exact c2_initialize_idempotent installEngine allFiles emptyWorld "newshop" true true
    (initialize_database installEngine allFiles emptyWorld "newshop" true).2 hm hw
    (by rw [← h1])

/-! ## Evaluation facts

Concrete evaluations of the embedded functions, documenting the behaviour
of the splitter and the statement rewriter on representative inputs. -/

theorem eval_split_simple : split_sql_statements "a;b" = ["a", "b"] := by decide

theorem eval_split_hash_comment : split_sql_statements "x # c;d\ny;" = ["x y"] := by decide

theorem eval_split_block_comment :
    split_sql_statements "a /* c;d */ b; e" = ["a  b", "e"] := by decide

theorem eval_quote_identifier_escapes :
    quote_identifier "sho`pdb" = "`sho``pdb`" := by decide

theorem eval_patch_backtick_reference :
    executedText "shopdb" "INSERT INTO `floreriadb`.t VALUES (1)"
      = "INSERT INTO `shopdb`.t VALUES (1)" := by decide

theorem eval_patch_mixed_case_reference :
    executedText "shopdb" "INSERT INTO FloreriaDB.t VALUES (1)"
      = "INSERT INTO `shopdb`.t VALUES (1)" := by decide

theorem eval_create_database_rewrite :
    executedText "shopdb" "CREATE DATABASE IF NOT EXISTS `floreriadb` DEFAULT CHARSET utf8"
      = "CREATE DATABASE IF NOT EXISTS `shopdb` DEFAULT CHARSET utf8" := by decide

theorem eval_create_database_rewrite_other_name :
    executedText "shopdb" "create database otherdb"
      = "CREATE DATABASE IF NOT EXISTS `shopdb`" := by decide

end Bootstrap
